import Mathlib

/-!
Verification of the Aspace 2D collision core (convex-polygon SAT engine,
uniform spatial grid, two-pass world update) against its specification.

The C++ source is shallowly embedded: `float` values are modelled as exact
rationals, vectors as pairs of rationals, and the stateful routines as
explicit state-passing functions.  The two transcendental float routines the
core calls (`sqrtf` inside raymath's `Vector2Normalize`, and `cosf`/`sinf`
inside `ConvexPolygon::transform`) are modelled as explicit function
parameters (`sq`, `cosD`, `sinD`): every theorem below holds for an
arbitrary model of those library routines unless it states an explicit
hypothesis about them, and witnesses instantiate them with the exact
rational square root `ratSqrt` (exact on all inputs the witnesses use).
-/

namespace Aspace

/-- Model of raylib's Vector2: a pair of float coordinates (src/include
collisionshapes use raymath Vector2 throughout). -/
structure V2 where
  x : ℚ
  y : ℚ
deriving DecidableEq, Repr

/-- Model of raylib's Rectangle (x, y, width, height). -/
structure Rect where
  x : ℚ
  y : ℚ
  width : ℚ
  height : ℚ
deriving DecidableEq, Repr

/-- raymath Vector2Add. -/
def Vector2Add (a b : V2) : V2 := ⟨a.x + b.x, a.y + b.y⟩

/-- raymath Vector2Subtract. -/
def Vector2Subtract (a b : V2) : V2 := ⟨a.x - b.x, a.y - b.y⟩

/-- raymath Vector2Scale. -/
def Vector2Scale (v : V2) (s : ℚ) : V2 := ⟨v.x * s, v.y * s⟩

/-- raymath Vector2Negate. -/
def Vector2Negate (v : V2) : V2 := ⟨-v.x, -v.y⟩

/-- raymath Vector2DotProduct. -/
def Vector2DotProduct (a b : V2) : ℚ := a.x * b.x + a.y * b.y

/-- raymath Vector2Normalize: divides by sqrtf(x*x+y*y) when that length is
positive, otherwise returns the zero vector.  The float sqrtf is modelled by
the explicit parameter sq. -/
def Vector2Normalize (sq : ℚ → ℚ) (v : V2) : V2 :=
  let length := sq (v.x * v.x + v.y * v.y)
  if 0 < length then ⟨v.x * (1 / length), v.y * (1 / length)⟩ else ⟨0, 0⟩

/-- Fuel-driven binary search for the integer square root, maintaining
lo*lo ≤ n < hi*hi; structural recursion on the fuel so that concrete
evaluations reduce inside the kernel. -/
def isqrtGo (n : ℕ) : ℕ → ℕ → ℕ → ℕ
  | 0, lo, _ => lo
  | fuel + 1, lo, hi =>
    let mid := (lo + hi) / 2
    if mid = lo then lo
    else if mid * mid ≤ n then isqrtGo n fuel mid hi else isqrtGo n fuel lo mid

/-- Integer square root (floor) via isqrtGo. -/
def isqrt (n : ℕ) : ℕ := isqrtGo n n 0 (n + 1)

/-- Exact rational square root used by concrete witnesses as the model of
sqrtf; it is the exact square root whenever the numerator and denominator
are perfect squares (true of every witness input below). -/
def ratSqrt (q : ℚ) : ℚ := (isqrt q.num.toNat : ℚ) / (isqrt q.den : ℚ)

/-- Model of ConvexPolygon (src/include/collisionshapes.hpp): local vertices
and centroid are authored once; world vertices and centroid are the caches
rewritten by transform. -/
structure ConvexPolygon where
  localVertices : List V2
  localCenter : V2
  worldVertices : List V2
  worldCenter : V2
deriving DecidableEq, Repr

/-- ConvexPolygon constructor (collisionshapes.cpp lines 10-22): stores the
vertices, sets the local centre to the arithmetic mean (origin when empty)
and initialises worldCenter to localCenter.  The C++ resizes worldVertices
to the same length with value-initialised (zero) entries. -/
def ConvexPolygon.mk' (vertices : List V2) : ConvexPolygon :=
  let c :=
    if vertices ≠ [] then
      Vector2Scale (vertices.foldl Vector2Add ⟨0, 0⟩) (1 / vertices.length)
    else ⟨0, 0⟩
  ⟨vertices, c, vertices.map (fun _ => ⟨0, 0⟩), c⟩

/-- ConvexPolygon::transform (collisionshapes.cpp lines 24-52): no-op when
there are no local vertices; otherwise scale each local vertex about the
origin, rotate it, translate by the entity position, and store the result
into worldVertices; the local centre goes through the same pipeline into
worldCenter.  The C++ computes cosTheta = cosf(deg*DEG2RAD) and sinTheta =
sinf(deg*DEG2RAD); those two float evaluations are modelled by the explicit
parameters cosD and sinD applied to the rotation in degrees. -/
def ConvexPolygon.transform (cosD sinD : ℚ → ℚ) (p : ConvexPolygon)
    (entityPosition : V2) (entityRotationDegrees entityScale : ℚ) : ConvexPolygon :=
  if p.localVertices = [] then p
  else
    let cosTheta := cosD entityRotationDegrees
    let sinTheta := sinD entityRotationDegrees
    let world := p.localVertices.map (fun v =>
      let sx := v.x * entityScale
      let sy := v.y * entityScale
      Vector2Add entityPosition ⟨sx * cosTheta - sy * sinTheta, sx * sinTheta + sy * cosTheta⟩)
    let sc := Vector2Scale p.localCenter entityScale
    { p with
      worldVertices := world,
      worldCenter := Vector2Add entityPosition ⟨sc.x * cosTheta - sc.y * sinTheta, sc.x * sinTheta + sc.y * cosTheta⟩ }

/-- One step of CollisionSystem::ProjectPolygon (collisionshapes.cpp lines
226-238): updates the running (min, max) with one vertex's projection; the
C++ updates max only in the else branch of the min test. -/
def projStep (axis : V2) (mm : ℚ × ℚ) (v : V2) : ℚ × ℚ :=
  let p := Vector2DotProduct v axis
  if p < mm.1 then (p, mm.2) else if mm.2 < p then (mm.1, p) else mm

/-- CollisionSystem::ProjectPolygon (collisionshapes.cpp lines 226-238):
returns the (min, max) of the dot products of the vertices with the axis,
scanning with projStep from the first vertex's projection; (0, 0) for an
empty vertex list. -/
def ProjectPolygon (axis : V2) : List V2 → ℚ × ℚ
  | [] => (0, 0)
  | w :: rest =>
    rest.foldl (projStep axis) (Vector2DotProduct w axis, Vector2DotProduct w axis)

/-- CollisionSystem::GetOverlap (collisionshapes.cpp lines 240-242). -/
def GetOverlap (minA maxA minB maxB : ℚ) : ℚ :=
  max 0 (min maxA maxB - max minA minB)

/-- One step of the axis deduplication loop in GetUniqueAxes: the candidate
normal is dropped when its absolute dot product with an already accepted
axis exceeds 0.999, otherwise appended. -/
def pushAxis (axes : List V2) (normal : V2) : List V2 :=
  if axes.any (fun a => 999 / 1000 < |Vector2DotProduct normal a|) then axes
  else axes ++ [normal]

/-- CollisionSystem::GetUniqueAxes (collisionshapes.cpp lines 244-267):
empty for fewer than two vertices; otherwise for each wrapping edge
(p1, p2) take the normalized perpendicular of p2 - p1 and keep it unless
nearly parallel to an accepted axis.  The wrapping consecutive pairs are
produced by zipping the list with its left rotation. -/
def GetUniqueAxes (sq : ℚ → ℚ) (worldVertices : List V2) : List V2 :=
  if worldVertices.length < 2 then []
  else
    (worldVertices.zip (worldVertices.rotateLeft 1)).foldl (fun axes pq =>
      let edge := Vector2Subtract pq.2 pq.1
      pushAxis axes (Vector2Normalize sq ⟨-edge.y, edge.x⟩)) []

/-- State of the captured variables (overlap, smallestAxis) of the testAxes
lambda in CheckSATCollision; overlap = none models the float +infinity the
C++ initialises the running minimum with. -/
structure SatState where
  overlap : Option ℚ
  smallestAxis : V2
deriving DecidableEq, Repr

/-- The separation test of CheckSATCollision (collisionshapes.cpp line 284)
for one axis: the projections are declared separated only when they are
disjoint by more than the 1e-3 float tolerance. -/
def isSep (polyA polyB : ConvexPolygon) (axis : V2) : Bool :=
  let mmA := ProjectPolygon axis polyA.worldVertices
  let mmB := ProjectPolygon axis polyB.worldVertices
  decide (mmA.2 < mmB.1 - 1 / 1000) || decide (mmB.2 < mmA.1 - 1 / 1000)

/-- The overlap CheckSATCollision computes on one axis (collisionshapes.cpp
line 287). -/
def overlapOn (polyA polyB : ConvexPolygon) (axis : V2) : ℚ :=
  let mmA := ProjectPolygon axis polyA.worldVertices
  let mmB := ProjectPolygon axis polyB.worldVertices
  GetOverlap mmA.1 mmA.2 mmB.1 mmB.2

/-- The running-minimum update of CheckSATCollision (collisionshapes.cpp
lines 288-291): o < overlap, where overlap may still be +infinity. -/
def updMin (st : SatState) (axis : V2) (o : ℚ) : SatState :=
  match st.overlap with
  | none => ⟨some o, axis⟩
  | some ov => if o < ov then ⟨some o, axis⟩ else st

/-- The testAxes lambda of CheckSATCollision (collisionshapes.cpp lines
278-295): walks the axis list, returning none as soon as a separating axis
is found (early exit) and otherwise threading the running minimum overlap. -/
def testAxesGo (polyA polyB : ConvexPolygon) : SatState → List V2 → Option SatState
  | st, [] => some st
  | st, axis :: rest =>
    if isSep polyA polyB axis then none
    else testAxesGo polyA polyB (updMin st axis (overlapOn polyA polyB axis)) rest

/-- CollisionSystem::CheckSATCollision (collisionshapes.cpp lines 269-309).
The mtv reference parameter is modelled in-out: the function receives its
current value and returns (collided, final value); every path returning
false leaves it untouched, matching the C++ which writes mtv only on line
307.  When both axis lists are empty the C++ scales the zero smallestAxis
by the float +infinity sentinel (producing NaN); the exact model maps that
unreached-minimum case (overlap = none) through Option.getD 0, and every
theorem about the returned mtv excludes it via a nonempty-axes hypothesis. -/
def CheckSATCollision (sq : ℚ → ℚ) (polyA polyB : ConvexPolygon) (mtv : V2) : Bool × V2 :=
  if polyA.worldVertices = [] ∨ polyB.worldVertices = [] then (false, mtv)
  else
    let axesA := GetUniqueAxes sq polyA.worldVertices
    let axesB := GetUniqueAxes sq polyB.worldVertices
    match testAxesGo polyA polyB ⟨none, ⟨0, 0⟩⟩ axesA with
    | none => (false, mtv)
    | some st1 =>
      match testAxesGo polyA polyB st1 axesB with
      | none => (false, mtv)
      | some st2 =>
        let direction := Vector2Subtract polyB.worldCenter polyA.worldCenter
        let ax :=
          if Vector2DotProduct direction st2.smallestAxis < 0 then Vector2Negate st2.smallestAxis
          else st2.smallestAxis
        (true, Vector2Scale ax (st2.overlap.getD 0))

/-- Inner loop of CheckShapesCollide: tries polyA against each polygon of
shapeB in order, returning on the first collision and threading the mtv
reference through the failed calls. -/
def shapesGoInner (sq : ℚ → ℚ) (polyA : ConvexPolygon) : List ConvexPolygon → V2 → Bool × V2
  | [], mtv => (false, mtv)
  | polyB :: rest, mtv =>
    match CheckSATCollision sq polyA polyB mtv with
    | (true, m) => (true, m)
    | (false, m) => shapesGoInner sq polyA rest m

/-- CollisionSystem::CheckShapesCollide (collisionshapes.cpp lines 311-320):
iterates all polygon pairs across the two compound shapes (a CollisionShape
is its ordered polygon list) and returns on the first colliding pair. -/
def CheckShapesCollide (sq : ℚ → ℚ) : List ConvexPolygon → List ConvexPolygon → V2 → Bool × V2
  | [], _, mtv => (false, mtv)
  | polyA :: rest, shapeB, mtv =>
    match shapesGoInner sq polyA shapeB mtv with
    | (true, m) => (true, m)
    | (false, m) => CheckShapesCollide sq rest shapeB m

/-- C++ conversion of a float to int: truncation toward zero. -/
def ratTrunc (q : ℚ) : ℤ := if q < 0 then -⌊-q⌋ else ⌊q⌋

/-- std::clamp on int values (lo ≤ hi on every use site here). -/
def clampI (v lo hi : ℤ) : ℤ := if v < lo then lo else if hi < v then hi else v

/-- std::clamp on float values. -/
def clampQ (v lo hi : ℚ) : ℚ := if v < lo then lo else if hi < v then hi else v

/-- Model of UniformGrid (src/include/world.hpp lines 19-46): cell size,
column and row counts, and one bucket of entity references per cell.  The
C++ stores the buckets in a vector indexed by y*cols+x; the model keeps a
total function from that integer index (clamping keeps every used index in
range) and identifies entities by stable natural-number ids, standing for
the Entity pointers the C++ stores. -/
structure UniformGrid where
  cs : ℤ
  cols : ℤ
  rows : ℤ
  buckets : ℤ → List ℕ

/-- UniformGrid constructor (world.hpp lines 21-25): ceiling division for
the column and row counts (C++ int division truncates toward zero; the
operands are positive on the only construction site), and empty buckets. -/
def UniformGrid.mk' (worldW worldH cellSz : ℤ) : UniformGrid :=
  ⟨cellSz, Int.tdiv (worldW + cellSz - 1) cellSz, Int.tdiv (worldH + cellSz - 1) cellSz,
   fun _ => []⟩

/-- The list lo, lo+1, ..., hi of integers (empty when hi < lo). -/
def intRange (lo hi : ℤ) : List ℤ :=
  (List.range (hi + 1 - lo).toNat).map (fun (k : ℕ) => lo + (k : ℤ))

/-- The clamped cell column of a coordinate, as computed by visitCells:
float division by the cell size, truncation to int, clamp into [0, cols-1]. -/
def cellCol (g : UniformGrid) (q : ℚ) : ℤ :=
  clampI (ratTrunc (q / (g.cs : ℚ))) 0 (g.cols - 1)

/-- The clamped cell row of a coordinate, as computed by visitCells. -/
def cellRow (g : UniformGrid) (q : ℚ) : ℤ :=
  clampI (ratTrunc (q / (g.cs : ℚ))) 0 (g.rows - 1)

/-- UniformGrid::visitCells (world.hpp lines 37-45): the inclusive clamped
cell-index rectangle covered by a Rectangle, listed as the bucket indices
y*cols+x in the same row-major visiting order as the C++ loops. -/
def coveredCells (g : UniformGrid) (r : Rect) : List ℤ :=
  (intRange (cellRow g r.y) (cellRow g (r.y + r.height))).flatMap
    (fun yy => (intRange (cellCol g r.x) (cellCol g (r.x + r.width))).map
      (fun xx => yy * g.cols + xx))

/-- Pointwise update of one bucket. -/
def bUpdate (f : ℤ → List ℕ) (i : ℤ) (h : List ℕ → List ℕ) : ℤ → List ℕ :=
  fun j => if j = i then h (f j) else f j

/-- UniformGrid::insert (world.hpp line 27): push_back the entity into every
covered cell's bucket. -/
def gridInsert (g : UniformGrid) (e : ℕ) (box : Rect) : UniformGrid :=
  { g with buckets :=
      (coveredCells g box).foldl (fun f i => bUpdate f i (fun l => l ++ [e])) g.buckets }

/-- UniformGrid::remove (world.hpp line 28): the erase-remove idiom deletes
every occurrence of the entity from every covered cell's bucket. -/
def gridRemove (g : UniformGrid) (e : ℕ) (box : Rect) : UniformGrid :=
  { g with buckets :=
      (coveredCells g box).foldl (fun f i => bUpdate f i (fun l => l.filter (fun a => a ≠ e))) g.buckets }

/-- UniformGrid::query (world.hpp lines 30-31): the visitor is invoked once
per entity reference found in any covered cell, in cell-then-bucket order;
the model returns the list of those visits. -/
def gridQuery (g : UniformGrid) (area : Rect) : List ℕ :=
  (coveredCells g area).foldl (fun acc i => acc ++ g.buckets i) []

/-- World constants (world.hpp lines 54-56). -/
def WORLD_W : ℤ := 8192 * 2

/-- World height constant (world.hpp line 55). -/
def WORLD_H : ℤ := 4096 * 2

/-- World cell size constant (world.hpp line 56). -/
def CELL_SIZE : ℤ := 512

/-- Corner extents accumulator for the AABB scans. -/
structure Extents where
  minX : ℚ
  minY : ℚ
  maxX : ℚ
  maxY : ℚ
deriving DecidableEq, Repr

/-- The min/max scan over a vertex list shared by ConvexPolygon::getAABB and
Entity::recalcOverallAABB: a zero rectangle at the origin when there are no
vertices (the C++ first-element flag never fires and the zero-initialised
extremes remain), otherwise the bounding rectangle. -/
def aabbOfVerts : List V2 → Rect
  | [] => ⟨0, 0, 0, 0⟩
  | v :: rest =>
    let ex := rest.foldl
      (fun ex w => ⟨min ex.minX w.x, min ex.minY w.y, max ex.maxX w.x, max ex.maxY w.y⟩)
      (Extents.mk v.x v.y v.x v.y)
    ⟨ex.minX, ex.minY, ex.maxX - ex.minX, ex.maxY - ex.minY⟩

/-- ConvexPolygon::getAABB (collisionshapes.cpp lines 68-82). -/
def ConvexPolygon.getAABB (p : ConvexPolygon) : Rect := aabbOfVerts p.worldVertices

/-- Model of Entity (src/include/entity.hpp): exactly the fields the
collision core consumes or mutates.  The CollisionShape member is its
ordered polygon list. -/
structure Ent where
  position : V2
  size : V2
  rotation : ℚ
  scale : ℚ
  velocity : V2
  isAlive : Bool
  isCollidable : Bool
  shape : List ConvexPolygon
  overallAABB : Rect
deriving DecidableEq, Repr

/-- Entity::isAliveAndCollidable (entity.hpp line 28). -/
def Ent.isAliveAndCollidable (e : Ent) : Bool := e.isAlive && e.isCollidable

/-- Entity::recalcOverallAABB (entity.cpp lines 17-55): transform every
polygon with the current position/rotation/scale (the CollisionShape
updateWorldVertices forwarding), then either the size-derived fallback
rectangle when the shape has no polygons, or the bounding rectangle of all
world vertices. -/
def Ent.recalcOverallAABB (cosD sinD : ℚ → ℚ) (e : Ent) : Ent :=
  let shape1 := e.shape.map (fun p => p.transform cosD sinD e.position e.rotation e.scale)
  if shape1 = [] then
    let w2 := e.size.x * (1 / 2) * e.scale
    let h2 := e.size.y * (1 / 2) * e.scale
    { e with shape := shape1,
             overallAABB := ⟨e.position.x - w2, e.position.y - h2, w2 * 2, h2 * 2⟩ }
  else
    { e with shape := shape1,
             overallAABB := aabbOfVerts (shape1.map (fun p => p.worldVertices)).flatten }

/-- Entity::setPosition (entity.hpp line 38): store the position and
recalculate the overall AABB (which also re-transforms the shape). -/
def Ent.setPosition (cosD sinD : ℚ → ℚ) (e : Ent) (p : V2) : Ent :=
  Ent.recalcOverallAABB cosD sinD { e with position := p }

/-- World::keepInside (world.hpp lines 89-99): clamps the position to the
world bounds using the box's half extents, then repositions the box around
the clamped position; both reference parameters are returned. -/
def keepInside (box : Rect) (pos : V2) : Rect × V2 :=
  let halfW := box.width * (1 / 2)
  let halfH := box.height * (1 / 2)
  let px := clampQ pos.x halfW ((WORLD_W : ℚ) - halfW)
  let py := clampQ pos.y halfH ((WORLD_H : ℚ) - halfH)
  (⟨px - halfW, py - halfH, box.width, box.height⟩, ⟨px, py⟩)

/-- World::bucketOf (world.hpp line 203): the cell key of a position, via
float-to-int truncation then C++ integer division by CELL_SIZE. -/
def bucketOf (p : V2) : ℤ × ℤ :=
  (Int.tdiv (ratTrunc p.x) CELL_SIZE, Int.tdiv (ratTrunc p.y) CELL_SIZE)

/-- The first-pass body of World::update (world.hpp lines 105-128) for one
entity: skip unless alive and collidable; remember the position's cell key
and the overall AABB; run the entity's own externally defined update
(modelled by the parameter beh, covering movement, AI and the entity's own
AABB recomputation); clamp the position into the world via keepInside
(which mutates the remembered oldBox to the clamped position, and writes
the position through getMutablePosition without any AABB recalculation);
and, when the cell key changed, remove the (mutated) oldBox entry and
insert the current overall AABB.  The zoomControl call touches only camera
state. -/
def pass1Body (beh : Ent → Ent) (eid : ℕ) (g : UniformGrid) (E : Ent) : UniformGrid × Ent :=
  if ¬ E.isAliveAndCollidable then (g, E)
  else
    let oldCell := bucketOf E.position
    let oldBox := E.overallAABB
    let E1 := beh E
    let bp := keepInside oldBox E1.position
    let E2 := { E1 with position := bp.2 }
    let newCell := bucketOf E2.position
    if oldCell ≠ newCell then
      (gridInsert (gridRemove g eid bp.1) eid E2.overallAABB, E2)
    else (g, E2)

/-- World state for the second pass: the entity vector (identified by
stable indices, standing for the Entity pointers, whose order models the
address order the C++ compares) and the grid. -/
structure WState where
  entities : List Ent
  grid : UniformGrid

/-- The body of the candidate loop in the second pass of World::update
(world.hpp lines 142-161) for current entity i and candidate j, threading
the world state and a log of the (A, B) pairs actually passed to
CheckShapesCollide.  Skips mirror the C++: candidate is A itself, candidate
not alive/collidable, or the total order places the candidate before A.
The C++ declares the mtv variable uninitialised; the model passes a zero
vector, whose value is never read on any path that uses the result. -/
def processCandidate (sq cosD sinD : ℚ → ℚ) (i : ℕ) (aabbA : Rect)
    (acc : WState × List (ℕ × ℕ)) (j : ℕ) : WState × List (ℕ × ℕ) :=
  let s := acc.1
  match s.entities[i]?, s.entities[j]? with
  | some A, some B =>
    if j = i then acc
    else if ¬ B.isAliveAndCollidable then acc
    else
      if j < i then acc
      else
        match CheckShapesCollide sq A.shape B.shape ⟨0, 0⟩ with
        | (true, m) =>
          let half := Vector2Scale m (1 / 2)
          let A1 := Ent.setPosition cosD sinD A (Vector2Subtract A.position half)
          let B1 := Ent.setPosition cosD sinD B (Vector2Add B.position half)
          let ents := (s.entities.set i A1).set j B1
          let g1 := gridInsert (gridRemove s.grid i aabbA) i A1.overallAABB
          (⟨ents, g1⟩, acc.2 ++ [(i, j)])
        | (false, _) => (s, acc.2 ++ [(i, j)])
  | _, _ => acc

/-- One outer iteration of the second pass of World::update (world.hpp
lines 131-162): skip unless alive and collidable, snapshot the overall
AABB, collect the candidate list by one grid query, then run the candidate
loop on that snapshot. -/
def pass2Entity (sq cosD sinD : ℚ → ℚ) (acc : WState × List (ℕ × ℕ)) (i : ℕ) :
    WState × List (ℕ × ℕ) :=
  match acc.1.entities[i]? with
  | none => acc
  | some A =>
    if ¬ A.isAliveAndCollidable then acc
    else
      let aabbA := A.overallAABB
      let cands := gridQuery acc.1.grid aabbA
      cands.foldl (processCandidate sq cosD sinD i aabbA) acc

/-- The state and test log after the second pass has processed the first k
entities. -/
def pass2Prefix (sq cosD sinD : ℚ → ℚ) (s : WState) (k : ℕ) : WState × List (ℕ × ℕ) :=
  (List.range k).foldl (pass2Entity sq cosD sinD) (s, [])

/-- The full second pass of World::update: every entity in vector order. -/
def pass2 (sq cosD sinD : ℚ → ℚ) (s : WState) : WState × List (ℕ × ℕ) :=
  pass2Prefix sq cosD sinD s s.entities.length

/-! Concrete instances used by witnesses and counterexamples.  Polygons with
axis-aligned edges are chosen throughout so that ratSqrt is the exact model
of sqrtf on every normalisation they trigger, and rotations are zero so the
constant functions below are the exact models of cosf and sinf. -/

/-- Exact model of the cosine evaluation for a zero rotation. -/
def cosConst : ℚ → ℚ := fun _ => 1

/-- Exact model of the sine evaluation for a zero rotation. -/
def sinConst : ℚ → ℚ := fun _ => 0

/-- A transformed square polygon with side 10 centred on the origin. -/
def polySq10 : ConvexPolygon :=
  ⟨[⟨-5, -5⟩, ⟨5, -5⟩, ⟨5, 5⟩, ⟨-5, 5⟩], ⟨0, 0⟩,
   [⟨-5, -5⟩, ⟨5, -5⟩, ⟨5, 5⟩, ⟨-5, 5⟩], ⟨0, 0⟩⟩

/-- The side-10 square shifted right so its projection gap to polySq10 on
the x axis is exactly 1/2000: strictly disjoint, but inside the 1e-3
separation tolerance of CheckSATCollision. -/
def polySq10Near : ConvexPolygon :=
  ⟨[], ⟨0, 0⟩,
   [⟨5 + 1/2000, -5⟩, ⟨15 + 1/2000, -5⟩, ⟨15 + 1/2000, 5⟩, ⟨5 + 1/2000, 5⟩],
   ⟨10 + 1/2000, 0⟩⟩

/-- The side-10 square shifted right by 15 (a 5-unit gap to polySq10). -/
def polySq10Far : ConvexPolygon :=
  ⟨[], ⟨0, 0⟩, [⟨10, -5⟩, ⟨20, -5⟩, ⟨20, 5⟩, ⟨10, 5⟩], ⟨15, 0⟩⟩

/-- A transformed unit-ish square [0,2] x [0,2]. -/
def polyBox2 : ConvexPolygon :=
  ⟨[], ⟨0, 0⟩, [⟨0, 0⟩, ⟨2, 0⟩, ⟨2, 2⟩, ⟨0, 2⟩], ⟨1, 1⟩⟩

/-- The [0,2] square shifted right by 1, overlapping polyBox2 by 1. -/
def polyBox2Shift : ConvexPolygon :=
  ⟨[], ⟨0, 0⟩, [⟨1, 0⟩, ⟨3, 0⟩, ⟨3, 2⟩, ⟨1, 2⟩], ⟨2, 1⟩⟩

/-- A degenerate polygon holding a single world vertex. -/
def polyPointO : ConvexPolygon := ⟨[], ⟨0, 0⟩, [⟨0, 0⟩], ⟨0, 0⟩⟩

/-- A second single-vertex polygon, far from polyPointO. -/
def polyPointF : ConvexPolygon := ⟨[], ⟨0, 0⟩, [⟨5, 5⟩], ⟨5, 5⟩⟩

/-- A polygon with no world vertices. -/
def polyEmpty : ConvexPolygon := ⟨[], ⟨0, 0⟩, [], ⟨0, 0⟩⟩

/-- An entity whose single polygon spans grid cells (0,0) and (1,0):
world vertices [100,600] x [50,250], matching overall AABB. -/
def entWide : Ent :=
  ⟨⟨350, 150⟩, ⟨64, 64⟩, 0, 1, ⟨0, 0⟩, true, true,
   [⟨[], ⟨0, 0⟩, [⟨100, 50⟩, ⟨600, 50⟩, ⟨600, 250⟩, ⟨100, 250⟩], ⟨350, 150⟩⟩],
   ⟨100, 50, 500, 200⟩⟩

/-- An entity whose single polygon spans [400,600] x [300,400]: it also
covers grid cells (0,0) and (1,0), but its shape is separated from
entWide's shape by a 50-unit vertical gap. -/
def entWideB : Ent :=
  ⟨⟨500, 350⟩, ⟨64, 64⟩, 0, 1, ⟨0, 0⟩, true, true,
   [⟨[], ⟨0, 0⟩, [⟨400, 300⟩, ⟨600, 300⟩, ⟨600, 400⟩, ⟨400, 400⟩], ⟨500, 350⟩⟩],
   ⟨400, 300, 200, 100⟩⟩

/-- A grid (World dimensions) whose cells 0 and 1 both hold entities 0 and
1, exactly the membership induced by the AABBs of entWide and entWideB. -/
def gridTwoCells : UniformGrid :=
  ⟨512, 32, 16, fun c => if c = 0 then [0, 1] else if c = 1 then [0, 1] else []⟩

/-- The two-entity world in which both entities legitimately occupy two
common grid cells, so each appears twice in the other's candidate list. -/
def wDup : WState := ⟨[entWide, entWideB], gridTwoCells⟩

/-- An entity with a small square shape inside grid cell (0,0). -/
def entNearA : Ent :=
  ⟨⟨125, 125⟩, ⟨64, 64⟩, 0, 1, ⟨0, 0⟩, true, true,
   [⟨[], ⟨0, 0⟩, [⟨100, 100⟩, ⟨150, 100⟩, ⟨150, 150⟩, ⟨100, 150⟩], ⟨125, 125⟩⟩],
   ⟨100, 100, 50, 50⟩⟩

/-- A second small-square entity inside cell (0,0), not touching entNearA. -/
def entNearB : Ent :=
  ⟨⟨225, 225⟩, ⟨64, 64⟩, 0, 1, ⟨0, 0⟩, true, true,
   [⟨[], ⟨0, 0⟩, [⟨200, 200⟩, ⟨250, 200⟩, ⟨250, 250⟩, ⟨200, 250⟩], ⟨225, 225⟩⟩],
   ⟨200, 200, 50, 50⟩⟩

/-- A grid whose cell 0 holds entities 0 and 1, matching the AABBs of
entNearA and entNearB. -/
def gridOneCell : UniformGrid :=
  ⟨512, 32, 16, fun c => if c = 0 then [0, 1] else []⟩

/-- The two-entity world in which each candidate list mentions the other
entity exactly once. -/
def wOnce : WState := ⟨[entNearA, entNearB], gridOneCell⟩

/-- The pass-1 failing input: an entity at (100,100) with a 100 x 100
square shape (AABB [50,150] x [50,150], grid cell (0,0)). -/
def entMover : Ent :=
  ⟨⟨100, 100⟩, ⟨64, 64⟩, 0, 1, ⟨0, 0⟩, true, true,
   [⟨[⟨-50, -50⟩, ⟨50, -50⟩, ⟨50, 50⟩, ⟨-50, 50⟩], ⟨0, 0⟩,
     [⟨50, 50⟩, ⟨150, 50⟩, ⟨150, 150⟩, ⟨50, 150⟩], ⟨100, 100⟩⟩],
   ⟨50, 50, 100, 100⟩⟩

/-- A world-sized grid holding entMover (id 0) exactly in the cells covered
by its AABB, i.e. cell (0,0). -/
def gridMover : UniformGrid :=
  gridInsert (UniformGrid.mk' 16384 8192 512) 0 ⟨50, 50, 100, 100⟩

/-- The externally defined entity update for the failing input: move 900
units right and recalculate the overall AABB, as the ship updates do. -/
def behMove : Ent → Ent := fun e =>
  Ent.recalcOverallAABB cosConst sinConst { e with position := Vector2Add e.position ⟨900, 0⟩ }

/-- An entity whose square shape spans [0,10] x [0,10] (cell (0,0)). -/
def entColA : Ent :=
  ⟨⟨5, 5⟩, ⟨64, 64⟩, 0, 1, ⟨0, 0⟩, true, true,
   [⟨[⟨-5, -5⟩, ⟨5, -5⟩, ⟨5, 5⟩, ⟨-5, 5⟩], ⟨0, 0⟩,
     [⟨0, 0⟩, ⟨10, 0⟩, ⟨10, 10⟩, ⟨0, 10⟩], ⟨5, 5⟩⟩],
   ⟨0, 0, 10, 10⟩⟩

/-- An entity overlapping entColA by 2 units on the x axis: square shape
spanning [8,18] x [0,10]. -/
def entColB : Ent :=
  ⟨⟨13, 5⟩, ⟨64, 64⟩, 0, 1, ⟨0, 0⟩, true, true,
   [⟨[⟨-5, -5⟩, ⟨5, -5⟩, ⟨5, 5⟩, ⟨-5, 5⟩], ⟨0, 0⟩,
     [⟨8, 0⟩, ⟨18, 0⟩, ⟨18, 10⟩, ⟨8, 10⟩], ⟨13, 5⟩⟩],
   ⟨8, 0, 10, 10⟩⟩

/-- The two-entity world holding the overlapping pair, grid cell 0 holding
both. -/
def wCol : WState := ⟨[entColA, entColB], gridOneCell⟩

/-- A small polygon with authored local vertices, used to instantiate the
transform purity/idempotence claim. -/
def polyLocalTri : ConvexPolygon :=
  ⟨[⟨0, -10⟩, ⟨10, 10⟩, ⟨-10, 10⟩], ⟨0, 10/3⟩, [⟨0, 0⟩, ⟨0, 0⟩, ⟨0, 0⟩], ⟨0, 10/3⟩⟩

/-! Theorems. -/

/-- C9: ConvexPolygon::transform is pure and idempotent: a second call with
identical (position, rotation, scale) leaves worldVertices and worldCenter
at exactly their values after the first call, and (for a polygon that has
local vertices, so that the call is not the documented no-op) the result
depends only on the immutable local vertices and local centre together with
the three arguments. -/
theorem transform_pure_idempotent (cosD sinD : ℚ → ℚ) (p q : ConvexPolygon)
    (pos : V2) (rot sc : ℚ)
    (hv : p.localVertices = q.localVertices) (hc : p.localCenter = q.localCenter) :
    ((p.transform cosD sinD pos rot sc).transform cosD sinD pos rot sc).worldVertices
      = (p.transform cosD sinD pos rot sc).worldVertices
    ∧ ((p.transform cosD sinD pos rot sc).transform cosD sinD pos rot sc).worldCenter
      = (p.transform cosD sinD pos rot sc).worldCenter
    ∧ (p.localVertices ≠ [] →
        (p.transform cosD sinD pos rot sc).worldVertices
            = (q.transform cosD sinD pos rot sc).worldVertices
        ∧ (p.transform cosD sinD pos rot sc).worldCenter
            = (q.transform cosD sinD pos rot sc).worldCenter) := by
  by_cases h : p.localVertices = []
  · refine ⟨?_, ?_, fun hne => absurd h hne⟩ <;> simp [ConvexPolygon.transform, h]
  · have hq : ¬ q.localVertices = [] := by rw [← hv]; exact h
    refine ⟨?_, ?_, fun _ => ⟨?_, ?_⟩⟩ <;>
      simp [ConvexPolygon.transform, h, hq, hv, hc]

/-- Witness for transform_pure_idempotent at a concrete triangle. -/
theorem transform_pure_idempotent_witness :
    ((polyLocalTri.transform cosConst sinConst ⟨3, 4⟩ 0 2).transform cosConst sinConst ⟨3, 4⟩ 0 2).worldVertices
      = (polyLocalTri.transform cosConst sinConst ⟨3, 4⟩ 0 2).worldVertices
    ∧ ((polyLocalTri.transform cosConst sinConst ⟨3, 4⟩ 0 2).transform cosConst sinConst ⟨3, 4⟩ 0 2).worldCenter
      = (polyLocalTri.transform cosConst sinConst ⟨3, 4⟩ 0 2).worldCenter :=
  ⟨(transform_pure_idempotent cosConst sinConst polyLocalTri polyLocalTri ⟨3, 4⟩ 0 2 rfl rfl).1,
   (transform_pure_idempotent cosConst sinConst polyLocalTri polyLocalTri ⟨3, 4⟩ 0 2 rfl rfl).2.1⟩

/-- C7 (amended): a polygon with an empty world-vertex list never reports a
collision, and the mtv is untouched; the claim's extension to other
too-few-vertex polygons fails, see the counterexample. -/
theorem sat_empty_no_collision (sq : ℚ → ℚ) (A B : ConvexPolygon) (m : V2)
    (h : A.worldVertices = [] ∨ B.worldVertices = []) :
    CheckSATCollision sq A B m = (false, m) := by
  unfold CheckSATCollision
  rw [if_pos h]

/-- Witness for sat_empty_no_collision on a concrete empty polygon. -/
theorem sat_empty_no_collision_witness :
    CheckSATCollision ratSqrt polyEmpty polySq10 ⟨9, 9⟩ = (false, ⟨9, 9⟩) :=
  sat_empty_no_collision ratSqrt polyEmpty polySq10 ⟨9, 9⟩ (Or.inl rfl)

/-- C7 counterexample: two single-vertex polygons (too few vertices to form
a polygon) are reported as colliding by CheckSATCollision, even though they
are 5 units apart, because neither contributes any axis and the axis loops
then succeed vacuously. -/
theorem sat_single_vertex_collision_counterexample :
    polyPointO.worldVertices.length = 1 ∧ polyPointF.worldVertices.length = 1
    ∧ (CheckSATCollision ratSqrt polyPointO polyPointF ⟨0, 0⟩).1 = true := by
  decide!

/-- Helper for C10: every false-returning path of CheckSATCollision leaves
the in-out mtv at its incoming value. -/
theorem satFalseSnd (sq : ℚ → ℚ) (A B : ConvexPolygon) (m : V2)
    (h : (CheckSATCollision sq A B m).1 = false) : (CheckSATCollision sq A B m).2 = m := by
  unfold CheckSATCollision at h ⊢
  by_cases he : A.worldVertices = [] ∨ B.worldVertices = []
  · rw [if_pos he]
  · rw [if_neg he] at h ⊢
    cases h1 : testAxesGo A B ⟨none, ⟨0, 0⟩⟩ (GetUniqueAxes sq A.worldVertices) with
    | none => simp [h1]
    | some st1 =>
      cases h2 : testAxesGo A B st1 (GetUniqueAxes sq B.worldVertices) with
      | none => simp [h1, h2]
      | some st2 => simp [h1, h2] at h

/-- Helper for C10: the inner loop of CheckShapesCollide threads the mtv
unchanged through every non-colliding pair. -/
theorem shapesInnerFalseSnd (sq : ℚ → ℚ) (pA : ConvexPolygon) :
    ∀ (l : List ConvexPolygon) (m : V2),
      (shapesGoInner sq pA l m).1 = false → (shapesGoInner sq pA l m).2 = m := by
  intro l
  induction l with
  | nil => intro m _; rfl
  | cons b rest ih =>
    intro m h
    unfold shapesGoInner at h ⊢
    cases hc : CheckSATCollision sq pA b m with
    | mk fst snd =>
      cases fst
      · rw [hc] at h
        have h2 : (shapesGoInner sq pA rest snd).1 = false := h
        have hm : (CheckSATCollision sq pA b m).2 = m := satFalseSnd sq pA b m (by rw [hc])
        rw [hc] at hm
        show (shapesGoInner sq pA rest snd).2 = m
        rw [ih snd h2]
        exact hm
      · rw [hc] at h
        simp at h

/-- Helper for C10: CheckShapesCollide leaves the mtv unchanged whenever it
returns no collision. -/
theorem shapesFalseSnd (sq : ℚ → ℚ) :
    ∀ (sA sB : List ConvexPolygon) (m : V2),
      (CheckShapesCollide sq sA sB m).1 = false → (CheckShapesCollide sq sA sB m).2 = m := by
  intro sA
  induction sA with
  | nil => intro sB m _; rfl
  | cons pA rest ih =>
    intro sB m h
    unfold CheckShapesCollide at h ⊢
    cases hc : shapesGoInner sq pA sB m with
    | mk fst snd =>
      cases fst
      · rw [hc] at h
        have h2 : (CheckShapesCollide sq rest sB snd).1 = false := h
        have hm : (shapesGoInner sq pA sB m).2 = m := shapesInnerFalseSnd sq pA sB m (by rw [hc])
        rw [hc] at hm
        show (CheckShapesCollide sq rest sB snd).2 = m
        rw [ih sB snd h2]
        exact hm
      · rw [hc] at h
        simp at h

/-- C10: when CheckSATCollision or CheckShapesCollide reports no collision,
the caller's mtv output parameter is returned exactly as it came in — the
reference is written only on the colliding path. -/
theorem sat_mtv_unmodified_on_false (sq : ℚ → ℚ) (A B : ConvexPolygon)
    (sA sB : List ConvexPolygon) (m : V2) :
    ((CheckSATCollision sq A B m).1 = false → (CheckSATCollision sq A B m).2 = m)
    ∧ ((CheckShapesCollide sq sA sB m).1 = false → (CheckShapesCollide sq sA sB m).2 = m) :=
  ⟨satFalseSnd sq A B m, shapesFalseSnd sq sA sB m⟩

/-- Witness for sat_mtv_unmodified_on_false on separated squares. -/
theorem sat_mtv_unmodified_on_false_witness :
    (CheckSATCollision ratSqrt polySq10 polySq10Far ⟨7, 7⟩).2 = ⟨7, 7⟩
    ∧ (CheckShapesCollide ratSqrt [polySq10] [polySq10Far] ⟨7, 7⟩).2 = ⟨7, 7⟩ :=
  ⟨(sat_mtv_unmodified_on_false ratSqrt polySq10 polySq10Far [polySq10] [polySq10Far] ⟨7, 7⟩).1
      (by decide!),
   (sat_mtv_unmodified_on_false ratSqrt polySq10 polySq10Far [polySq10] [polySq10Far] ⟨7, 7⟩).2
      (by decide!)⟩

/-- Helper for C1: once the axis walk reaches an axis whose separation test
fires, it returns none regardless of the incoming state and of every axis
after it (the early exit). -/
theorem tg_sep_none (A B : ConvexPolygon) (ax : V2) (hsep : isSep A B ax = true) :
    ∀ (pre : List V2) (st : SatState) (post : List V2),
      testAxesGo A B st (pre ++ ax :: post) = none := by
  intro pre
  induction pre with
  | nil => intro st post; simp [testAxesGo, hsep]
  | cons p pre ih =>
    intro st post
    by_cases hp : isSep A B p
    · simp [testAxesGo, hp]
    · simp [testAxesGo, hp, ih]

/-- C1 (amended): if some axis returned by GetUniqueAxes of either polygon
separates the projections by more than the 1e-3 tolerance (the isSep test),
CheckSATCollision returns no collision, and the axis walk stops at the
first such axis: it returns none whatever axes follow it.  The claim's
stronger form — strictly disjoint projections alone suffice — fails inside
the tolerance, see the counterexample. -/
theorem sat_separating_axis_no_collision (sq : ℚ → ℚ) (A B : ConvexPolygon) (m : V2) (ax : V2)
    (hmem : ax ∈ GetUniqueAxes sq A.worldVertices ++ GetUniqueAxes sq B.worldVertices)
    (hsep : isSep A B ax = true) :
    (CheckSATCollision sq A B m).1 = false
    ∧ ∀ (st : SatState) (pre post : List V2), testAxesGo A B st (pre ++ ax :: post) = none := by
  refine ⟨?_, fun st pre post => tg_sep_none A B ax hsep pre st post⟩
  unfold CheckSATCollision
  by_cases he : A.worldVertices = [] ∨ B.worldVertices = []
  · rw [if_pos he]
  · rw [if_neg he]
    rcases List.mem_append.1 hmem with hA | hB
    · obtain ⟨pre, post, hdec⟩ := List.append_of_mem hA
      rw [hdec]
      simp [tg_sep_none A B ax hsep]
    · cases h1 : testAxesGo A B ⟨none, ⟨0, 0⟩⟩ (GetUniqueAxes sq A.worldVertices) with
      | none => simp [h1]
      | some st1 =>
        obtain ⟨pre, post, hdec⟩ := List.append_of_mem hB
        simp [h1, hdec, tg_sep_none A B ax hsep pre st1 post]

/-- Witness for sat_separating_axis_no_collision: the two squares with a
5-unit gap are separated on the x axis of the first square. -/
theorem sat_separating_axis_no_collision_witness :
    ((⟨-1, 0⟩ : V2) ∈ GetUniqueAxes ratSqrt polySq10.worldVertices
        ++ GetUniqueAxes ratSqrt polySq10Far.worldVertices
      ∧ isSep polySq10 polySq10Far ⟨-1, 0⟩ = true)
    ∧ (CheckSATCollision ratSqrt polySq10 polySq10Far ⟨0, 0⟩).1 = false :=
  ⟨by decide!,
   (sat_separating_axis_no_collision ratSqrt polySq10 polySq10Far ⟨0, 0⟩ ⟨-1, 0⟩
      (by decide!) (by decide!)).1⟩

/-- C1 counterexample: the axis (-1,0) is returned by GetUniqueAxes for the
first square, the projections of the two squares on it are strictly
disjoint (gap 1/2000), yet CheckSATCollision reports a collision, because
the disjointness is inside the 1e-3 tolerance. -/
theorem sat_tolerance_counterexample :
    ((⟨-1, 0⟩ : V2) ∈ GetUniqueAxes ratSqrt polySq10.worldVertices)
    ∧ (ProjectPolygon ⟨-1, 0⟩ polySq10Near.worldVertices).2
        < (ProjectPolygon ⟨-1, 0⟩ polySq10.worldVertices).1
    ∧ (CheckSATCollision ratSqrt polySq10 polySq10Near ⟨0, 0⟩).1 = true := by
  decide!

/-- Helper: interval membership for intRange. -/
theorem mem_intRange {lo hi v : ℤ} (h1 : lo ≤ v) (h2 : v ≤ hi) : v ∈ intRange lo hi := by
  unfold intRange
  have hv : v = lo + ((v - lo).toNat : ℤ) := by omega
  have hm : (v - lo).toNat ∈ List.range (hi + 1 - lo).toNat := List.mem_range.2 (by omega)
  rw [hv]
  exact List.mem_map_of_mem (fun k : ℕ => lo + (k : ℤ)) hm

/-- Helper: C++ float-to-int truncation is monotone. -/
theorem ratTrunc_mono {a b : ℚ} (h : a ≤ b) : ratTrunc a ≤ ratTrunc b := by
  unfold ratTrunc
  by_cases ha : a < 0 <;> by_cases hb : b < 0 <;> simp only [ha, hb, if_true, if_false]
  · exact neg_le_neg (Int.floor_mono (by linarith))
  · have hx : (0 : ℤ) ≤ ⌊-a⌋ := Int.floor_nonneg.2 (by linarith)
    have hy : (0 : ℤ) ≤ ⌊b⌋ := Int.floor_nonneg.2 (by linarith)
    omega
  · linarith
  · exact Int.floor_mono h

/-- Helper: std::clamp is monotone in its value argument. -/
theorem clampI_mono {a b lo hi : ℤ} (hlh : lo ≤ hi) (h : a ≤ b) :
    clampI a lo hi ≤ clampI b lo hi := by
  unfold clampI
  split_ifs <;> omega

/-- Helper: the clamped cell column is monotone in the coordinate. -/
theorem cellCol_mono (g : UniformGrid) {a b : ℚ} (hcs : 0 < g.cs) (hcols : 0 < g.cols)
    (h : a ≤ b) : cellCol g a ≤ cellCol g b := by
  unfold cellCol
  have hc : (0 : ℚ) < (g.cs : ℚ) := by exact_mod_cast hcs
  have hdiv : a / (g.cs : ℚ) ≤ b / (g.cs : ℚ) := by gcongr
  exact clampI_mono (by omega) (ratTrunc_mono hdiv)

/-- Helper: the clamped cell row is monotone in the coordinate. -/
theorem cellRow_mono (g : UniformGrid) {a b : ℚ} (hcs : 0 < g.cs) (hrows : 0 < g.rows)
    (h : a ≤ b) : cellRow g a ≤ cellRow g b := by
  unfold cellRow
  have hc : (0 : ℚ) < (g.cs : ℚ) := by exact_mod_cast hcs
  have hdiv : a / (g.cs : ℚ) ≤ b / (g.cs : ℚ) := by gcongr
  exact clampI_mono (by omega) (ratTrunc_mono hdiv)

/-- Helper: a cell index whose column and row lie inside the clamped ranges
is listed by coveredCells. -/
theorem mem_coveredCells (g : UniformGrid) (r : Rect) {x y : ℤ}
    (hx1 : cellCol g r.x ≤ x) (hx2 : x ≤ cellCol g (r.x + r.width))
    (hy1 : cellRow g r.y ≤ y) (hy2 : y ≤ cellRow g (r.y + r.height)) :
    y * g.cols + x ∈ coveredCells g r := by
  unfold coveredCells
  exact List.mem_flatMap.2 ⟨y, mem_intRange hy1 hy2,
    List.mem_map.2 ⟨x, mem_intRange hx1 hx2, rfl⟩⟩

/-- Helper: the insert fold never removes a bucket element. -/
theorem appendFold_preserve (e x : ℕ) :
    ∀ (L : List ℤ) (f : ℤ → List ℕ) (i : ℤ), x ∈ f i →
      x ∈ (L.foldl (fun f c => bUpdate f c (fun l => l ++ [e])) f) i := by
  intro L
  induction L with
  | nil => intro f i hx; exact hx
  | cons c L ih =>
    intro f i hx
    refine ih _ i ?_
    unfold bUpdate
    by_cases hic : i = c
    · subst hic
      simp [hx]
    · simp [hic, hx]

/-- Helper: insert puts the entity into every covered cell's bucket. -/
theorem appendFold_mem (e : ℕ) :
    ∀ (L : List ℤ) (f : ℤ → List ℕ) (i : ℤ), i ∈ L →
      e ∈ (L.foldl (fun f c => bUpdate f c (fun l => l ++ [e])) f) i := by
  intro L
  induction L with
  | nil => intro f i hi; cases hi
  | cons c L ih =>
    intro f i hi
    rcases List.mem_cons.1 hi with hic | hiL
    · refine appendFold_preserve e e L _ i ?_
      unfold bUpdate
      simp [hic]
    · exact ih _ i hiL

/-- Helper: the insert fold leaves cells outside the list untouched. -/
theorem appendFold_untouched (e : ℕ) :
    ∀ (L : List ℤ) (f : ℤ → List ℕ) (i : ℤ), i ∉ L →
      (L.foldl (fun f c => bUpdate f c (fun l => l ++ [e])) f) i = f i := by
  intro L
  induction L with
  | nil => intro f i _; rfl
  | cons c L ih =>
    intro f i hi
    have hic : i ≠ c := fun h => hi (h ▸ List.mem_cons_self c L)
    have hiL : i ∉ L := fun h => hi (List.mem_cons_of_mem c h)
    rw [List.foldl_cons, ih _ i hiL]
    unfold bUpdate
    simp [hic]

/-- Helper: after the remove fold, the entity is absent from every cell it
covered, and still absent from every cell it never occupied. -/
theorem removeFold_not_mem (e : ℕ) :
    ∀ (L : List ℤ) (f : ℤ → List ℕ) (i : ℤ), (e ∉ f i ∨ i ∈ L) →
      e ∉ (L.foldl (fun f c => bUpdate f c (fun l => l.filter (fun a => a ≠ e))) f) i := by
  intro L
  induction L with
  | nil =>
    intro f i h
    rcases h with h | h
    · exact h
    · cases h
  | cons c L ih =>
    intro f i h
    refine ih _ i ?_
    by_cases hic : i = c
    · left
      unfold bUpdate
      simp [hic]
    · rcases h with h | h
      · left
        unfold bUpdate
        simp [hic]
        exact h
      · rcases List.mem_cons.1 h with h' | h'
        · exact absurd h' hic
        · right
          exact h'

/-- Helper: everything the query returns comes from the accumulator or from
a covered cell's bucket. -/
theorem queryFold_src (g : UniformGrid) (x : ℕ) :
    ∀ (L : List ℤ) (acc : List ℕ),
      x ∈ L.foldl (fun acc i => acc ++ g.buckets i) acc →
      x ∈ acc ∨ ∃ i ∈ L, x ∈ g.buckets i := by
  intro L
  induction L with
  | nil => intro acc h; exact Or.inl h
  | cons c L ih =>
    intro acc h
    rcases ih _ h with h' | ⟨i, hi, hx⟩
    · rcases List.mem_append.1 h' with h'' | h''
      · exact Or.inl h''
      · exact Or.inr ⟨c, List.mem_cons_self c L, h''⟩
    · exact Or.inr ⟨i, List.mem_cons_of_mem c hi, hx⟩

/-- Helper: the query keeps everything already in its accumulator. -/
theorem queryFold_acc (g : UniformGrid) (x : ℕ) :
    ∀ (L : List ℤ) (acc : List ℕ), x ∈ acc →
      x ∈ L.foldl (fun acc i => acc ++ g.buckets i) acc := by
  intro L
  induction L with
  | nil => intro acc h; exact h
  | cons c L ih => intro acc h; exact ih _ (List.mem_append.2 (Or.inl h))

/-- Helper: the query returns every element of every covered cell's bucket. -/
theorem queryFold_mem (g : UniformGrid) (x : ℕ) :
    ∀ (L : List ℤ) (acc : List ℕ) (i : ℤ), i ∈ L → x ∈ g.buckets i →
      x ∈ L.foldl (fun acc i => acc ++ g.buckets i) acc := by
  intro L
  induction L with
  | nil => intro acc i hi _; cases hi
  | cons c L ih =>
    intro acc i hi hx
    rcases List.mem_cons.1 hi with hic | hiL
    · subst hic
      exact queryFold_acc g x L _ (List.mem_append.2 (Or.inr hx))
    · exact ih _ i hiL hx

/-- C5: an entity inserted with its AABB is visited at least once by any
query whose rectangle overlaps that AABB (no under-reporting), including
rectangles extending beyond the grid's world bounds, since cell indices are
clamped into range. -/
theorem grid_query_completeness (g : UniformGrid) (e : ℕ) (box area : Rect)
    (hcs : 0 < g.cs) (hcols : 0 < g.cols) (hrows : 0 < g.rows)
    (hbw : 0 ≤ box.width) (hbh : 0 ≤ box.height)
    (haw : 0 ≤ area.width) (hah : 0 ≤ area.height)
    (h1 : box.x ≤ area.x + area.width) (h2 : area.x ≤ box.x + box.width)
    (h3 : box.y ≤ area.y + area.height) (h4 : area.y ≤ box.y + box.height) :
    e ∈ gridQuery (gridInsert g e box) area := by
  have hgi : (gridInsert g e box).cs = g.cs := rfl
  have hx1b : cellCol g box.x ≤ cellCol g (max box.x area.x) :=
    cellCol_mono g hcs hcols (le_max_left _ _)
  have hx2b : cellCol g (max box.x area.x) ≤ cellCol g (box.x + box.width) :=
    cellCol_mono g hcs hcols (max_le (by linarith) h2)
  have hx1a : cellCol g area.x ≤ cellCol g (max box.x area.x) :=
    cellCol_mono g hcs hcols (le_max_right _ _)
  have hx2a : cellCol g (max box.x area.x) ≤ cellCol g (area.x + area.width) :=
    cellCol_mono g hcs hcols (max_le h1 (by linarith))
  have hy1b : cellRow g box.y ≤ cellRow g (max box.y area.y) :=
    cellRow_mono g hcs hrows (le_max_left _ _)
  have hy2b : cellRow g (max box.y area.y) ≤ cellRow g (box.y + box.height) :=
    cellRow_mono g hcs hrows (max_le (by linarith) h4)
  have hy1a : cellRow g area.y ≤ cellRow g (max box.y area.y) :=
    cellRow_mono g hcs hrows (le_max_right _ _)
  have hy2a : cellRow g (max box.y area.y) ≤ cellRow g (area.y + area.height) :=
    cellRow_mono g hcs hrows (max_le h3 (by linarith))
  have hcellb : cellRow g (max box.y area.y) * g.cols + cellCol g (max box.x area.x)
      ∈ coveredCells g box := mem_coveredCells g box hx1b hx2b hy1b hy2b
  have hcella : cellRow g (max box.y area.y) * g.cols + cellCol g (max box.x area.x)
      ∈ coveredCells g area := mem_coveredCells g area hx1a hx2a hy1a hy2a
  have hbucket : e ∈ (gridInsert g e box).buckets
      (cellRow g (max box.y area.y) * g.cols + cellCol g (max box.x area.x)) := by
    unfold gridInsert
    exact appendFold_mem e (coveredCells g box) g.buckets _ hcellb
  unfold gridQuery
  exact queryFold_mem (gridInsert g e box) e (coveredCells (gridInsert g e box) area) []
    _ hcella hbucket

/-- Witness for grid_query_completeness: the World grid, an in-bounds AABB,
and a query rectangle reaching far outside the world bounds. -/
theorem grid_query_completeness_witness :
    (7 : ℕ) ∈ gridQuery
      (gridInsert (UniformGrid.mk' 16384 8192 512) 7 ⟨100, 100, 50, 50⟩)
      ⟨-1000, -1000, 1200, 1200⟩ :=
  grid_query_completeness (UniformGrid.mk' 16384 8192 512) 7 ⟨100, 100, 50, 50⟩
    ⟨-1000, -1000, 1200, 1200⟩ (by decide!) (by decide!) (by decide!) (by decide!)
    (by decide!) (by decide!) (by decide!) (by decide!) (by decide!) (by decide!)
    (by decide!)

/-- C8: starting from a grid in which the entity is present in no cell,
insert followed by remove with the same AABB leaves the entity in no cell
of the grid, so no subsequent query over any area ever visits it. -/
theorem grid_insert_remove_no_trace (g : UniformGrid) (e : ℕ) (box : Rect)
    (h : ∀ i, e ∉ g.buckets i) :
    (∀ i, e ∉ (gridRemove (gridInsert g e box) e box).buckets i)
    ∧ ∀ area, e ∉ gridQuery (gridRemove (gridInsert g e box) e box) area := by
  have habsent : ∀ i, e ∉ (gridRemove (gridInsert g e box) e box).buckets i := by
    intro i
    unfold gridRemove
    by_cases hi : i ∈ coveredCells (gridInsert g e box) box
    · exact removeFold_not_mem e _ _ i (Or.inr hi)
    · refine removeFold_not_mem e _ _ i (Or.inl ?_)
      have hsame : coveredCells (gridInsert g e box) box = coveredCells g box := rfl
      rw [hsame] at hi
      show e ∉ ((coveredCells g box).foldl
        (fun f i => bUpdate f i (fun l => l ++ [e])) g.buckets) i
      rw [appendFold_untouched e (coveredCells g box) g.buckets i hi]
      exact h i
  refine ⟨habsent, fun area hmem => ?_⟩
  unfold gridQuery at hmem
  rcases queryFold_src _ e _ _ hmem with h' | ⟨i, _, hx⟩
  · cases h'
  · exact habsent i hx

/-- Helper: the running-minimum update always leaves a finite overlap. -/
theorem updMin_isSome (st : SatState) (ax : V2) (o : ℚ) : ((updMin st ax o).overlap).isSome := by
  unfold updMin
  cases hst : st.overlap with
  | none => rfl
  | some ov =>
    by_cases hlt : o < ov <;> simp [hlt, hst]

/-- Helper: the updMin equation when the running overlap is still infinite. -/
theorem updMin_none (st : SatState) (ax : V2) (o : ℚ) (h : st.overlap = none) :
    updMin st ax o = ⟨some o, ax⟩ := by
  unfold updMin
  rw [h]

/-- Helper: the updMin equation on a strictly smaller overlap. -/
theorem updMin_lt (st : SatState) (ax : V2) (o ov : ℚ) (h : st.overlap = some ov)
    (hlt : o < ov) : updMin st ax o = ⟨some o, ax⟩ := by
  unfold updMin
  rw [h]
  simp [hlt]

/-- Helper: the updMin equation when the overlap does not improve. -/
theorem updMin_ge (st : SatState) (ax : V2) (o ov : ℚ) (h : st.overlap = some ov)
    (hge : ¬ o < ov) : updMin st ax o = st := by
  unfold updMin
  rw [h]
  simp [hge]

/-- Helper: a completed axis walk has a finite overlap as soon as the
incoming state had one or at least one axis was processed. -/
theorem tg_isSome (A B : ConvexPolygon) :
    ∀ (axes : List V2) (st st' : SatState), testAxesGo A B st axes = some st' →
      (st.overlap.isSome ∨ axes ≠ []) → st'.overlap.isSome := by
  intro axes
  induction axes with
  | nil =>
    intro st st' h hor
    cases h
    rcases hor with h' | h'
    · exact h'
    · exact absurd rfl h'
  | cons ax rest ih =>
    intro st st' h _
    unfold testAxesGo at h
    by_cases hsep : isSep A B ax
    · rw [if_pos hsep] at h
      cases h
    · rw [if_neg hsep] at h
      exact ih _ st' h (Or.inl (updMin_isSome st ax _))

/-- Helper: full characterisation of the axis walk when it completes: the
final state is either untouched or holds the overlap of one of the walked
axes, and its overlap is a lower bound of every walked axis's overlap and
of the incoming overlap. -/
theorem tg_char (A B : ConvexPolygon) :
    ∀ (axes : List V2) (st st' : SatState), testAxesGo A B st axes = some st' →
      (st' = st ∨ (st'.smallestAxis ∈ axes
          ∧ st'.overlap = some (overlapOn A B st'.smallestAxis)))
      ∧ ∀ o', st'.overlap = some o' →
          (∀ x ∈ axes, o' ≤ overlapOn A B x) ∧ ∀ ov, st.overlap = some ov → o' ≤ ov := by
  intro axes
  induction axes with
  | nil =>
    intro st st' h
    cases h
    refine ⟨Or.inl rfl, fun o' ho' => ⟨fun x hx => absurd hx (List.not_mem_nil x), ?_⟩⟩
    intro ov hov
    rw [ho'] at hov
    cases hov
    exact le_refl o'
  | cons ax rest ih =>
    intro st st' h
    unfold testAxesGo at h
    by_cases hsep : isSep A B ax
    · rw [if_pos hsep] at h
      cases h
    · rw [if_neg hsep] at h
      obtain ⟨ih1, ih2⟩ := ih _ st' h
      constructor
      · rcases ih1 with he | ⟨hm, hov⟩
        · cases hst : st.overlap with
          | none =>
            rw [updMin_none st ax _ hst] at he
            refine Or.inr ⟨?_, ?_⟩
            · rw [he]
              exact List.mem_cons_self ax rest
            · rw [he]
          | some ov =>
            by_cases hlt : overlapOn A B ax < ov
            · rw [updMin_lt st ax _ ov hst hlt] at he
              refine Or.inr ⟨?_, ?_⟩
              · rw [he]
                exact List.mem_cons_self ax rest
              · rw [he]
            · rw [updMin_ge st ax _ ov hst hlt] at he
              exact Or.inl he
        · exact Or.inr ⟨List.mem_cons_of_mem ax hm, hov⟩
      · intro o' ho'
        obtain ⟨hall, hprev⟩ := ih2 o' ho'
        cases hst : st.overlap with
        | none =>
          have hup : (updMin st ax (overlapOn A B ax)).overlap = some (overlapOn A B ax) := by
            rw [updMin_none st ax _ hst]
          have hle : o' ≤ overlapOn A B ax := hprev _ hup
          refine ⟨fun x hx => ?_, fun ov hov => ?_⟩
          · rcases List.mem_cons.1 hx with hxa | hxr
            · rw [hxa]
              exact hle
            · exact hall x hxr
          · cases hov
        | some ov =>
          by_cases hlt : overlapOn A B ax < ov
          · have hup : (updMin st ax (overlapOn A B ax)).overlap = some (overlapOn A B ax) := by
              rw [updMin_lt st ax _ ov hst hlt]
            have hle : o' ≤ overlapOn A B ax := hprev _ hup
            refine ⟨fun x hx => ?_, fun ov' hov' => ?_⟩
            · rcases List.mem_cons.1 hx with hxa | hxr
              · rw [hxa]
                exact hle
              · exact hall x hxr
            · cases hov'
              linarith
          · have hup : (updMin st ax (overlapOn A B ax)).overlap = some ov := by
              rw [updMin_ge st ax _ ov hst hlt, hst]
            have hle : o' ≤ ov := hprev _ hup
            refine ⟨fun x hx => ?_, fun ov' hov' => ?_⟩
            · rcases List.mem_cons.1 hx with hxa | hxr
              · rw [hxa]
                linarith [not_lt.1 hlt]
              · exact hall x hxr
            · cases hov'
              exact hle

/-- Helper: every per-axis overlap is non-negative (GetOverlap clamps at 0). -/
theorem overlapOn_nonneg (A B : ConvexPolygon) (ax : V2) : 0 ≤ overlapOn A B ax := by
  unfold overlapOn GetOverlap
  exact le_max_left 0 _

/-- Helper: the projStep scan on the zero axis never leaves (0, 0). -/
theorem foldl_projStep_zero :
    ∀ (rest : List V2), rest.foldl (projStep ⟨0, 0⟩) ((0 : ℚ), (0 : ℚ)) = (0, 0) := by
  intro rest
  induction rest with
  | nil => rfl
  | cons v rest ih =>
    rw [List.foldl_cons]
    have hstep : projStep ⟨0, 0⟩ ((0 : ℚ), (0 : ℚ)) v = (0, 0) := by
      unfold projStep
      simp [Vector2DotProduct]
    rw [hstep, ih]

/-- Helper: projection onto the zero axis collapses to (0, 0). -/
theorem projectPolygon_zero_axis (ws : List V2) : ProjectPolygon ⟨0, 0⟩ ws = (0, 0) := by
  cases ws with
  | nil => rfl
  | cons w rest =>
    have hz : Vector2DotProduct w ⟨0, 0⟩ = 0 := by simp [Vector2DotProduct]
    show rest.foldl (projStep ⟨0, 0⟩)
      (Vector2DotProduct w ⟨0, 0⟩, Vector2DotProduct w ⟨0, 0⟩) = (0, 0)
    rw [hz]
    exact foldl_projStep_zero rest

/-- Helper: the overlap computed on the zero axis is zero. -/
theorem overlapOn_zero_axis (A B : ConvexPolygon) : overlapOn A B ⟨0, 0⟩ = 0 := by
  unfold overlapOn
  rw [projectPolygon_zero_axis, projectPolygon_zero_axis]
  unfold GetOverlap
  simp

/-- Helper: dot product with a scaled left argument. -/
theorem dot_scale_left (v w : V2) (s : ℚ) :
    Vector2DotProduct (Vector2Scale v s) w = s * Vector2DotProduct v w := by
  simp only [Vector2DotProduct, Vector2Scale]
  ring

/-- Helper: dot product with a negated left argument. -/
theorem dot_neg_left (v w : V2) :
    Vector2DotProduct (Vector2Negate v) w = -Vector2DotProduct v w := by
  simp only [Vector2DotProduct, Vector2Negate]
  ring

/-- Helper: the dot product is symmetric. -/
theorem dot_comm (v w : V2) : Vector2DotProduct v w = Vector2DotProduct w v := by
  simp only [Vector2DotProduct]
  ring

/-- Helper: destructuring a colliding CheckSATCollision call into its two
completed axis walks and the returned mtv expression. -/
theorem sat_true_elim (sq : ℚ → ℚ) (A B : ConvexPolygon) (m0 mtv : V2)
    (hcol : CheckSATCollision sq A B m0 = (true, mtv)) :
    ∃ st1 st2 : SatState,
      testAxesGo A B ⟨none, ⟨0, 0⟩⟩ (GetUniqueAxes sq A.worldVertices) = some st1
      ∧ testAxesGo A B st1 (GetUniqueAxes sq B.worldVertices) = some st2
      ∧ mtv = Vector2Scale
          (if Vector2DotProduct (Vector2Subtract B.worldCenter A.worldCenter) st2.smallestAxis < 0
           then Vector2Negate st2.smallestAxis else st2.smallestAxis)
          (st2.overlap.getD 0) := by
  unfold CheckSATCollision at hcol
  by_cases he : A.worldVertices = [] ∨ B.worldVertices = []
  · rw [if_pos he] at hcol
    exact absurd hcol (by simp)
  · rw [if_neg he] at hcol
    cases h1 : testAxesGo A B ⟨none, ⟨0, 0⟩⟩ (GetUniqueAxes sq A.worldVertices) with
    | none => simp [h1] at hcol
    | some st1 =>
      cases h2 : testAxesGo A B st1 (GetUniqueAxes sq B.worldVertices) with
      | none => simp [h1, h2] at hcol
      | some st2 =>
        simp only [h1, h2] at hcol
        rw [Prod.mk.injEq] at hcol
        exact ⟨st1, st2, rfl, h2, hcol.2.symm⟩

/-- C2: for every reported collision, the returned MTV has non-negative dot
product with the centre-to-centre direction from A to B, and its squared
norm is the square of the minimum overlap found across all tested axes
(equivalently, its magnitude is that minimum overlap, both being
non-negative).  The hypotheses say that at least one axis was produced and
that the sqrtf model normalised every produced axis exactly (unit axes, or
the zero axis from a degenerate edge) — which is the spec's real-arithmetic
reading of Vector2Normalize. -/
theorem sat_mtv_orientation_magnitude (sq : ℚ → ℚ) (A B : ConvexPolygon) (m0 mtv : V2)
    (hne : GetUniqueAxes sq A.worldVertices ≠ [] ∨ GetUniqueAxes sq B.worldVertices ≠ [])
    (hunit : ∀ a ∈ GetUniqueAxes sq A.worldVertices ++ GetUniqueAxes sq B.worldVertices,
      Vector2DotProduct a a = 1 ∨ a = ⟨0, 0⟩)
    (hcol : CheckSATCollision sq A B m0 = (true, mtv)) :
    0 ≤ Vector2DotProduct mtv (Vector2Subtract B.worldCenter A.worldCenter)
    ∧ ∃ o, 0 ≤ o ∧ Vector2DotProduct mtv mtv = o * o
        ∧ o ∈ (GetUniqueAxes sq A.worldVertices
            ++ GetUniqueAxes sq B.worldVertices).map (overlapOn A B)
        ∧ ∀ x ∈ (GetUniqueAxes sq A.worldVertices
            ++ GetUniqueAxes sq B.worldVertices).map (overlapOn A B), o ≤ x := by
  obtain ⟨st1, st2, h1, h2, hmtv⟩ := sat_true_elim sq A B m0 mtv hcol
  have hsome : st2.overlap.isSome := by
    rcases hne with hA | hB
    · exact tg_isSome A B _ st1 st2 h2
        (Or.inl (tg_isSome A B _ _ st1 h1 (Or.inr hA)))
    · exact tg_isSome A B _ st1 st2 h2 (Or.inr hB)
  obtain ⟨o, ho⟩ := Option.isSome_iff_exists.1 hsome
  obtain ⟨hc1a, hc1b⟩ := tg_char A B _ _ st1 h1
  obtain ⟨hc2a, hc2b⟩ := tg_char A B _ st1 st2 h2
  have horigin : st2.overlap = some (overlapOn A B st2.smallestAxis)
      ∧ st2.smallestAxis ∈ GetUniqueAxes sq A.worldVertices
          ++ GetUniqueAxes sq B.worldVertices := by
    rcases hc2a with he2 | ⟨hm, hov⟩
    · rcases hc1a with he1 | ⟨hm1, hov1⟩
      · rw [he2, he1] at ho
        cases ho
      · rw [he2]
        exact ⟨hov1, List.mem_append_left _ hm1⟩
    · exact ⟨hov, List.mem_append_right _ hm⟩
  have hoeq : o = overlapOn A B st2.smallestAxis := by
    rw [ho] at horigin
    exact Option.some.inj horigin.1
  have hminB : ∀ x ∈ GetUniqueAxes sq B.worldVertices, o ≤ overlapOn A B x :=
    (hc2b o ho).1
  have hminA : ∀ x ∈ GetUniqueAxes sq A.worldVertices, o ≤ overlapOn A B x := by
    cases hst1 : st1.overlap with
    | none =>
      have haux : GetUniqueAxes sq A.worldVertices = [] := by
        by_contra hne'
        have := tg_isSome A B _ _ st1 h1 (Or.inr hne')
        rw [hst1] at this
        cases this
      rw [haux]
      intro x hx
      cases hx
    | some ov1 =>
      have hle : o ≤ ov1 := (hc2b o ho).2 ov1 hst1
      intro x hx
      exact le_trans hle ((hc1b ov1 hst1).1 x hx)
  have hnonneg : 0 ≤ o := by
    rw [hoeq]
    exact overlapOn_nonneg A B _
  rw [ho] at hmtv
  simp only [Option.getD_some] at hmtv
  constructor
  · rw [hmtv]
    by_cases hneg : Vector2DotProduct (Vector2Subtract B.worldCenter A.worldCenter)
        st2.smallestAxis < 0
    · rw [if_pos hneg, dot_scale_left, dot_neg_left,
        dot_comm st2.smallestAxis (Vector2Subtract B.worldCenter A.worldCenter)]
      have : (0 : ℚ) ≤ -Vector2DotProduct (Vector2Subtract B.worldCenter A.worldCenter)
          st2.smallestAxis := by linarith
      exact mul_nonneg hnonneg this
    · rw [if_neg hneg, dot_scale_left,
        dot_comm st2.smallestAxis (Vector2Subtract B.worldCenter A.worldCenter)]
      exact mul_nonneg hnonneg (not_lt.1 hneg)
  · refine ⟨o, hnonneg, ?_, ?_, ?_⟩
    · rcases hunit st2.smallestAxis horigin.2 with hu | hz
      · rw [hmtv]
        by_cases hneg : Vector2DotProduct (Vector2Subtract B.worldCenter A.worldCenter)
            st2.smallestAxis < 0
        · rw [if_pos hneg]
          simp only [Vector2DotProduct, Vector2Scale, Vector2Negate] at hu ⊢
          linear_combination (o * o) * hu
        · rw [if_neg hneg]
          simp only [Vector2DotProduct, Vector2Scale] at hu ⊢
          linear_combination (o * o) * hu
      · have hozero : o = 0 := by
          rw [hoeq, hz, overlapOn_zero_axis]
        rw [hmtv, hz, hozero]
        by_cases hneg : Vector2DotProduct (Vector2Subtract B.worldCenter A.worldCenter)
            (⟨0, 0⟩ : V2) < 0
        · rw [if_pos hneg]
          simp [Vector2DotProduct, Vector2Scale, Vector2Negate]
        · rw [if_neg hneg]
          simp [Vector2DotProduct, Vector2Scale]
    · rw [hoeq]
      exact List.mem_map_of_mem (overlapOn A B) horigin.2
    · intro x hx
      obtain ⟨a, ha, rfl⟩ := List.mem_map.1 hx
      rcases List.mem_append.1 ha with haA | haB
      · exact hminA a haA
      · exact hminB a haB

/-- Witness for sat_mtv_orientation_magnitude on two overlapping squares
(overlap 1 on the x axis, MTV (1, 0)). -/
theorem sat_mtv_orientation_magnitude_witness :
    (GetUniqueAxes ratSqrt polyBox2.worldVertices ≠ []
        ∨ GetUniqueAxes ratSqrt polyBox2Shift.worldVertices ≠ [])
    ∧ (0 ≤ Vector2DotProduct (CheckSATCollision ratSqrt polyBox2 polyBox2Shift ⟨0, 0⟩).2
        (Vector2Subtract polyBox2Shift.worldCenter polyBox2.worldCenter)) :=
  ⟨by decide!,
   (sat_mtv_orientation_magnitude ratSqrt polyBox2 polyBox2Shift ⟨0, 0⟩
      (CheckSATCollision ratSqrt polyBox2 polyBox2Shift ⟨0, 0⟩).2
      (by decide!) (by decide!) (by decide!)).1⟩

/-- Helper: recalcOverallAABB rewrites only the shape cache and the overall
AABB; every other entity field survives. -/
theorem recalc_frame (cosD sinD : ℚ → ℚ) (e : Ent) :
    (Ent.recalcOverallAABB cosD sinD e).position = e.position
    ∧ (Ent.recalcOverallAABB cosD sinD e).velocity = e.velocity
    ∧ (Ent.recalcOverallAABB cosD sinD e).isAlive = e.isAlive
    ∧ (Ent.recalcOverallAABB cosD sinD e).isCollidable = e.isCollidable
    ∧ (Ent.recalcOverallAABB cosD sinD e).rotation = e.rotation
    ∧ (Ent.recalcOverallAABB cosD sinD e).scale = e.scale
    ∧ (Ent.recalcOverallAABB cosD sinD e).size = e.size := by
  simp only [Ent.recalcOverallAABB]
  split <;> simp

/-- Helper: setPosition stores exactly the requested position and keeps the
velocity and flags. -/
theorem setPosition_frame (cosD sinD : ℚ → ℚ) (e : Ent) (p : V2) :
    (Ent.setPosition cosD sinD e p).position = p
    ∧ (Ent.setPosition cosD sinD e p).velocity = e.velocity
    ∧ (Ent.setPosition cosD sinD e p).isAlive = e.isAlive
    ∧ (Ent.setPosition cosD sinD e p).isCollidable = e.isCollidable := by
  unfold Ent.setPosition
  obtain ⟨h1, h2, h3, h4, _⟩ := recalc_frame cosD sinD { e with position := p }
  exact ⟨h1, h2, h3, h4⟩

/-- Helper: a bucket-update fold cannot change the count of an entity the
update function preserves. -/
theorem countFold_bUpdate (j : ℕ) (h : List ℕ → List ℕ)
    (hcount : ∀ l, (h l).count j = l.count j) :
    ∀ (L : List ℤ) (f : ℤ → List ℕ) (c : ℤ),
      ((L.foldl (fun f i => bUpdate f i h) f) c).count j = (f c).count j := by
  intro L
  induction L with
  | nil => intro f c; rfl
  | cons d L ih =>
    intro f c
    rw [List.foldl_cons, ih]
    unfold bUpdate
    by_cases hcd : c = d
    · simp [hcd, hcount]
    · simp [hcd]

/-- Helper: removing one entity from the grid leaves every other entity's
bucket counts unchanged. -/
theorem gridRemove_count (g : UniformGrid) (e j : ℕ) (box : Rect) (hje : j ≠ e) :
    ∀ c, ((gridRemove g e box).buckets c).count j = (g.buckets c).count j := by
  intro c
  unfold gridRemove
  exact countFold_bUpdate j _ (fun l => List.count_filter (by simp [hje])) _ g.buckets c

/-- Helper: inserting one entity into the grid leaves every other entity's
bucket counts unchanged. -/
theorem gridInsert_count (g : UniformGrid) (e j : ℕ) (box : Rect) (hje : j ≠ e) :
    ∀ c, ((gridInsert g e box).buckets c).count j = (g.buckets c).count j := by
  intro c
  unfold gridInsert
  refine countFold_bUpdate j _ (fun l => ?_) _ g.buckets c
  rw [List.count_append]
  have hz : List.count j [e] = 0 := List.count_eq_zero.2 (by simp [hje])
  simp [hz]

/-- C6: when the candidate loop detects a collision between A (current
entity i) and candidate B (index j) with MTV m, A's position becomes its
previous position minus m/2 and B's becomes its previous position plus m/2;
resolution is purely positional (velocities and flags untouched); A's grid
entry is re-synced (removed at the snapshot rectangle aabbA, re-inserted at
A's recalculated AABB), while B's grid membership is not re-synced: its
count in every bucket is unchanged. -/
theorem pass2_resolution_effects (sq cosD sinD : ℚ → ℚ) (s : WState) (log : List (ℕ × ℕ))
    (i j : ℕ) (aabbA : Rect) (A B : Ent) (m : V2)
    (hA : s.entities[i]? = some A) (hB : s.entities[j]? = some B)
    (hne : j ≠ i) (halive : B.isAliveAndCollidable = true) (hord : ¬ j < i)
    (hcol : CheckShapesCollide sq A.shape B.shape ⟨0, 0⟩ = (true, m)) :
    ∃ A1 B1 : Ent,
      A1 = Ent.setPosition cosD sinD A (Vector2Subtract A.position (Vector2Scale m (1 / 2)))
      ∧ B1 = Ent.setPosition cosD sinD B (Vector2Add B.position (Vector2Scale m (1 / 2)))
      ∧ (processCandidate sq cosD sinD i aabbA (s, log) j).1.entities[i]? = some A1
      ∧ (processCandidate sq cosD sinD i aabbA (s, log) j).1.entities[j]? = some B1
      ∧ A1.position = Vector2Subtract A.position (Vector2Scale m (1 / 2))
      ∧ B1.position = Vector2Add B.position (Vector2Scale m (1 / 2))
      ∧ A1.velocity = A.velocity ∧ B1.velocity = B.velocity
      ∧ A1.isAlive = A.isAlive ∧ B1.isAlive = B.isAlive
      ∧ A1.isCollidable = A.isCollidable ∧ B1.isCollidable = B.isCollidable
      ∧ (processCandidate sq cosD sinD i aabbA (s, log) j).1.grid
          = gridInsert (gridRemove s.grid i aabbA) i A1.overallAABB
      ∧ ∀ c, (((processCandidate sq cosD sinD i aabbA (s, log) j).1.grid.buckets c).count j)
          = ((s.grid.buckets c).count j) := by
  have hilen : i < s.entities.length := (List.getElem?_eq_some_iff.1 hA).1
  have hjlen : j < s.entities.length := (List.getElem?_eq_some_iff.1 hB).1
  have hpc : processCandidate sq cosD sinD i aabbA (s, log) j
      = (⟨(s.entities.set i
              (Ent.setPosition cosD sinD A
                (Vector2Subtract A.position (Vector2Scale m (1 / 2))))).set j
              (Ent.setPosition cosD sinD B
                (Vector2Add B.position (Vector2Scale m (1 / 2)))),
          gridInsert (gridRemove s.grid i aabbA) i
            (Ent.setPosition cosD sinD A
              (Vector2Subtract A.position (Vector2Scale m (1 / 2)))).overallAABB⟩,
         log ++ [(i, j)]) := by
    unfold processCandidate
    simp only [hA, hB, halive, hcol]
    simp [hne, hord]
  obtain ⟨hap, hav, haa, hac⟩ := setPosition_frame cosD sinD A
    (Vector2Subtract A.position (Vector2Scale m (1 / 2)))
  obtain ⟨hbp, hbv, hba, hbc⟩ := setPosition_frame cosD sinD B
    (Vector2Add B.position (Vector2Scale m (1 / 2)))
  refine ⟨_, _, rfl, rfl, ?_, ?_, hap, hbp, hav, hbv, haa, hba, hac, hbc, ?_, ?_⟩
  · rw [hpc]
    show ((s.entities.set i _).set j _)[i]? = _
    rw [List.getElem?_set_ne hne, List.getElem?_set_self (by simpa using hilen)]
  · rw [hpc]
    show ((s.entities.set i _).set j _)[j]? = _
    rw [List.getElem?_set_self (by simpa using hjlen)]
  · rw [hpc]
  · intro c
    rw [hpc]
    show (((gridInsert (gridRemove s.grid i aabbA) i _).buckets c).count j) = _
    rw [gridInsert_count _ _ _ _ hne, gridRemove_count _ _ _ _ hne]

/-- Witness for pass2_resolution_effects: the two overlapping square
entities of wCol with MTV (2, 0). -/
theorem pass2_resolution_effects_witness :
    ∃ A1 B1 : Ent,
      A1 = Ent.setPosition cosConst sinConst entColA
        (Vector2Subtract entColA.position (Vector2Scale ⟨2, 0⟩ (1 / 2)))
      ∧ B1 = Ent.setPosition cosConst sinConst entColB
        (Vector2Add entColB.position (Vector2Scale ⟨2, 0⟩ (1 / 2)))
      ∧ (processCandidate ratSqrt cosConst sinConst 0 ⟨0, 0, 10, 10⟩ (wCol, []) 1).1.entities[0]?
          = some A1
      ∧ (processCandidate ratSqrt cosConst sinConst 0 ⟨0, 0, 10, 10⟩ (wCol, []) 1).1.entities[1]?
          = some B1
      ∧ A1.position = Vector2Subtract entColA.position (Vector2Scale ⟨2, 0⟩ (1 / 2))
      ∧ B1.position = Vector2Add entColB.position (Vector2Scale ⟨2, 0⟩ (1 / 2))
      ∧ A1.velocity = entColA.velocity ∧ B1.velocity = entColB.velocity
      ∧ A1.isAlive = entColA.isAlive ∧ B1.isAlive = entColB.isAlive
      ∧ A1.isCollidable = entColA.isCollidable ∧ B1.isCollidable = entColB.isCollidable
      ∧ (processCandidate ratSqrt cosConst sinConst 0 ⟨0, 0, 10, 10⟩ (wCol, []) 1).1.grid
          = gridInsert (gridRemove wCol.grid 0 ⟨0, 0, 10, 10⟩) 0 A1.overallAABB
      ∧ ∀ c, (((processCandidate ratSqrt cosConst sinConst 0 ⟨0, 0, 10, 10⟩ (wCol, []) 1).1.grid.buckets c).count 1)
          = ((wCol.grid.buckets c).count 1) :=
  pass2_resolution_effects ratSqrt cosConst sinConst wCol [] 0 1 ⟨0, 0, 10, 10⟩
    entColA entColB ⟨2, 0⟩ (by decide!) (by decide!) (by decide!) (by decide!)
    (by decide!) (by decide!)

/-- C4 (the code bug): pass 1 for an entity that moved 900 units right.
Before the frame the grid matches the AABB (both are cell 0).  After the
first-pass body, the entity's new AABB covers exactly cells 1 and 2, yet
cell 0 still holds the entity: keepInside repositioned the remembered
oldBox to the new clamped position before grid.remove used it, so the
removal targeted cells 1 and 2 instead of cell 0, leaving a stale entry and
violating the claimed grid-matches-AABB invariant. -/
theorem pass1_stale_entry_after_move :
    coveredCells gridMover entMover.overallAABB = [0]
    ∧ gridMover.buckets 0 = [0]
    ∧ (pass1Body behMove 0 gridMover entMover).1.buckets 0 = [0]
    ∧ coveredCells (pass1Body behMove 0 gridMover entMover).1
        ((pass1Body behMove 0 gridMover entMover).2.overallAABB) = [1, 2] := by
  decide!

/-- Helper: setPosition does not change whether an entity is alive and
collidable. -/
theorem setPosition_alive (cosD sinD : ℚ → ℚ) (e : Ent) (p : V2) :
    (Ent.setPosition cosD sinD e p).isAliveAndCollidable = e.isAliveAndCollidable := by
  obtain ⟨_, _, h3, h4⟩ := setPosition_frame cosD sinD e p
  unfold Ent.isAliveAndCollidable
  rw [h3, h4]

/-- Helper: one candidate step preserves the entity count and the
alive-and-collidable status of every entity (it only moves entities and
re-syncs grid entries). -/
theorem pc_alive_len (sq cosD sinD : ℚ → ℚ) (i : ℕ) (aabbA : Rect)
    (acc : WState × List (ℕ × ℕ)) (j : ℕ) :
    (processCandidate sq cosD sinD i aabbA acc j).1.entities.length = acc.1.entities.length
    ∧ ∀ k : ℕ, ((processCandidate sq cosD sinD i aabbA acc j).1.entities[k]?).map
        Ent.isAliveAndCollidable = (acc.1.entities[k]?).map Ent.isAliveAndCollidable := by
  cases h1 : acc.1.entities[i]? with
  | none =>
    cases h2 : acc.1.entities[j]? with
    | none => simp [processCandidate, h1, h2]
    | some B => simp [processCandidate, h1, h2]
  | some A =>
    cases h2 : acc.1.entities[j]? with
    | none => simp [processCandidate, h1, h2]
    | some B =>
      have hilen : i < acc.1.entities.length := (List.getElem?_eq_some_iff.1 h1).1
      have hjlen : j < acc.1.entities.length := (List.getElem?_eq_some_iff.1 h2).1
      simp only [processCandidate, h1, h2]
      by_cases hji : j = i
      · rw [if_pos hji]
        exact ⟨rfl, fun k => rfl⟩
      · rw [if_neg hji]
        by_cases halive : B.isAliveAndCollidable
        · rw [if_neg (not_not_intro halive)]
          by_cases hlt : j < i
          · rw [if_pos hlt]
            exact ⟨rfl, fun k => rfl⟩
          · rw [if_neg hlt]
            cases hc : CheckShapesCollide sq A.shape B.shape ⟨0, 0⟩ with
            | mk b m =>
              cases b
              · simp only [hc]
                exact ⟨by trivial, fun k => by trivial⟩
              · simp only [hc]
                refine ⟨by simp, fun k => ?_⟩
                by_cases hkj : k = j
                · subst hkj
                  rw [List.getElem?_set_self (by simpa using hjlen), h2]
                  simp [setPosition_alive]
                · rw [List.getElem?_set_ne (fun h => hkj h.symm)]
                  by_cases hki : k = i
                  · subst hki
                    rw [List.getElem?_set_self (by simpa using hilen), h1]
                    simp [setPosition_alive]
                  · rw [List.getElem?_set_ne (fun h => hki h.symm)]
        · rw [if_pos (by simpa using halive)]
          exact ⟨rfl, fun k => rfl⟩

/-- Helper: one candidate step either logs nothing or logs exactly the
ordered pair (current, candidate), and only when the candidate is strictly
after the current entity in the total order. -/
theorem pc_log_shape (sq cosD sinD : ℚ → ℚ) (i : ℕ) (aabbA : Rect)
    (acc : WState × List (ℕ × ℕ)) (c : ℕ) :
    (processCandidate sq cosD sinD i aabbA acc c).2 = acc.2
    ∨ ((processCandidate sq cosD sinD i aabbA acc c).2 = acc.2 ++ [(i, c)] ∧ i < c) := by
  cases h1 : acc.1.entities[i]? with
  | none =>
    cases h2 : acc.1.entities[c]? with
    | none => simp [processCandidate, h1, h2]
    | some B => simp [processCandidate, h1, h2]
  | some A =>
    cases h2 : acc.1.entities[c]? with
    | none => simp [processCandidate, h1, h2]
    | some B =>
      simp only [processCandidate, h1, h2]
      by_cases hji : c = i
      · rw [if_pos hji]
        exact Or.inl rfl
      · rw [if_neg hji]
        by_cases halive : B.isAliveAndCollidable
        · rw [if_neg (not_not_intro halive)]
          by_cases hlt : c < i
          · rw [if_pos hlt]
            exact Or.inl rfl
          · rw [if_neg hlt]
            have hic : i < c := by omega
            cases hc : CheckShapesCollide sq A.shape B.shape ⟨0, 0⟩ with
            | mk b m =>
              cases b <;> simp only [hc] <;> exact Or.inr ⟨by trivial, hic⟩
        · rw [if_pos (by simpa using halive)]
          exact Or.inl rfl

/-- Helper: when the candidate passes all three skips, the pair is logged
(whether or not the narrow phase reports a collision). -/
theorem pc_log_tested (sq cosD sinD : ℚ → ℚ) (i : ℕ) (aabbA : Rect)
    (acc : WState × List (ℕ × ℕ)) (j : ℕ) (A B : Ent)
    (hA : acc.1.entities[i]? = some A) (hB : acc.1.entities[j]? = some B)
    (hne : j ≠ i) (hord : ¬ j < i) (halive : B.isAliveAndCollidable = true) :
    (processCandidate sq cosD sinD i aabbA acc j).2 = acc.2 ++ [(i, j)] := by
  unfold processCandidate
  simp only [hA, hB]
  rw [if_neg hne, if_neg (by simp [halive]), if_neg hord]
  cases hc : CheckShapesCollide sq A.shape B.shape ⟨0, 0⟩ with
  | mk b m => cases b <;> rfl

/-- Helper: the candidate fold preserves the entity count and the alive
status of every entity. -/
theorem pcFold_alive_len (sq cosD sinD : ℚ → ℚ) (i : ℕ) (aabbA : Rect) :
    ∀ (cands : List ℕ) (acc : WState × List (ℕ × ℕ)),
      ((cands.foldl (processCandidate sq cosD sinD i aabbA) acc).1.entities.length
          = acc.1.entities.length)
      ∧ ∀ k : ℕ, (((cands.foldl (processCandidate sq cosD sinD i aabbA) acc).1.entities[k]?).map
          Ent.isAliveAndCollidable) = ((acc.1.entities[k]?).map Ent.isAliveAndCollidable) := by
  intro cands
  induction cands with
  | nil => intro acc; exact ⟨rfl, fun k => rfl⟩
  | cons c cands ih =>
    intro acc
    rw [List.foldl_cons]
    obtain ⟨ihl, iha⟩ := ih (processCandidate sq cosD sinD i aabbA acc c)
    obtain ⟨hl, ha⟩ := pc_alive_len sq cosD sinD i aabbA acc c
    exact ⟨ihl.trans hl, fun k => (iha k).trans (ha k)⟩

/-- Helper: the candidate fold appends only pairs (i, c) with i < c. -/
theorem pcFold_log (sq cosD sinD : ℚ → ℚ) (i : ℕ) (aabbA : Rect) :
    ∀ (cands : List ℕ) (acc : WState × List (ℕ × ℕ)), ∃ t,
      (cands.foldl (processCandidate sq cosD sinD i aabbA) acc).2 = acc.2 ++ t
      ∧ ∀ p ∈ t, p.1 = i ∧ i < p.2 := by
  intro cands
  induction cands with
  | nil =>
    intro acc
    exact ⟨[], by simp, fun p hp => absurd hp (List.not_mem_nil p)⟩
  | cons c cands ih =>
    intro acc
    rw [List.foldl_cons]
    obtain ⟨t, ht, hp⟩ := ih (processCandidate sq cosD sinD i aabbA acc c)
    rcases pc_log_shape sq cosD sinD i aabbA acc c with hl | ⟨hl, hic⟩
    · exact ⟨t, by rw [ht, hl], hp⟩
    · refine ⟨(i, c) :: t, ?_, ?_⟩
      · rw [ht, hl, List.append_assoc]
        rfl
      · intro p hpm
        rcases List.mem_cons.1 hpm with hpc | hpt
        · rw [hpc]
          exact ⟨rfl, hic⟩
        · exact hp p hpt

/-- Helper: exact count of the tested pair (i, j) over one candidate fold:
one test per occurrence of j in the candidate list, given i before j in the
total order and j alive-and-collidable throughout (which the fold
preserves). -/
theorem pcFold_count (sq cosD sinD : ℚ → ℚ) (w : WState) (i j : ℕ) (aabbA : Rect)
    (hij : i < j)
    (hjw : (w.entities[j]?).map Ent.isAliveAndCollidable = some true) :
    ∀ (cands : List ℕ) (acc : WState × List (ℕ × ℕ)),
      acc.1.entities.length = w.entities.length →
      (∀ k : ℕ, ((acc.1.entities[k]?).map Ent.isAliveAndCollidable)
          = ((w.entities[k]?).map Ent.isAliveAndCollidable)) →
      ((cands.foldl (processCandidate sq cosD sinD i aabbA) acc).2.count (i, j))
        = acc.2.count (i, j) + cands.count j := by
  intro cands
  induction cands with
  | nil => intro acc _ _; simp
  | cons c cands ih =>
    intro acc hlen halive
    rw [List.foldl_cons]
    obtain ⟨hl, ha⟩ := pc_alive_len sq cosD sinD i aabbA acc c
    rw [ih _ (hl.trans hlen) (fun k => (ha k).trans (halive k))]
    by_cases hcj : c = j
    · subst hcj
      obtain ⟨Bw, hBw⟩ : ∃ Bw, w.entities[c]? = some Bw := by
        cases hw : w.entities[c]? with
        | none => rw [hw] at hjw; cases hjw
        | some Bw => exact ⟨Bw, rfl⟩
      have hclen : c < acc.1.entities.length := by
        rw [hlen]
        exact (List.getElem?_eq_some_iff.1 hBw).1
      have hilen : i < acc.1.entities.length := by omega
      obtain ⟨A, hA⟩ : ∃ A, acc.1.entities[i]? = some A := by
        cases h : acc.1.entities[i]? with
        | none =>
          have h2 := List.getElem?_eq_getElem hilen
          rw [h] at h2
          cases h2
        | some A => exact ⟨A, rfl⟩
      obtain ⟨B, hB, halB⟩ : ∃ B, acc.1.entities[c]? = some B
          ∧ B.isAliveAndCollidable = true := by
        have hmap := (halive c).trans hjw
        cases h : acc.1.entities[c]? with
        | none => rw [h] at hmap; cases hmap
        | some B =>
          rw [h] at hmap
          exact ⟨B, rfl, Option.some.inj hmap⟩
      rw [pc_log_tested sq cosD sinD i aabbA acc c A B hA hB (by omega) (by omega) halB]
      rw [List.count_append]
      have hone : List.count (i, c) [(i, c)] = 1 := by simp
      have hcons : List.count c (c :: cands) = List.count c cands + 1 := by
        simp [List.count_cons]
      rw [hone, hcons]
      omega
    · have hcj2 : ¬j = c := fun h => hcj h.symm
      have hbeq : (j == c) = false := beq_eq_false_iff_ne.2 hcj2
      have hcnt : List.count j (c :: cands) = List.count j cands := by
        simp [List.count_cons, hbeq, hcj, hcj2]
      rcases pc_log_shape sq cosD sinD i aabbA acc c with hl2 | ⟨hl2, _⟩
      · rw [hl2, hcnt]
      · have hz : List.count (i, j) [(i, c)] = 0 := by
          refine List.count_eq_zero.2 ?_
          simp [hcj, hcj2]
        rw [hl2, List.count_append, hz, hcnt]
        omega

/-- Helper: one outer iteration preserves the entity count and alive
statuses. -/
theorem p2e_alive_len (sq cosD sinD : ℚ → ℚ) (acc : WState × List (ℕ × ℕ)) (k : ℕ) :
    (pass2Entity sq cosD sinD acc k).1.entities.length = acc.1.entities.length
    ∧ ∀ k' : ℕ, (((pass2Entity sq cosD sinD acc k).1.entities[k']?).map Ent.isAliveAndCollidable)
        = ((acc.1.entities[k']?).map Ent.isAliveAndCollidable) := by
  cases h : acc.1.entities[k]? with
  | none => simp [pass2Entity, h]
  | some A =>
    by_cases halive : A.isAliveAndCollidable
    · have hred : pass2Entity sq cosD sinD acc k
          = (gridQuery acc.1.grid A.overallAABB).foldl
              (processCandidate sq cosD sinD k A.overallAABB) acc := by
        simp [pass2Entity, h, halive]
      rw [hred]
      exact pcFold_alive_len sq cosD sinD k A.overallAABB _ acc
    · simp [pass2Entity, h, halive]

/-- Helper: one outer iteration appends only pairs whose first component is
the iterated entity and whose second is larger. -/
theorem p2e_log (sq cosD sinD : ℚ → ℚ) (acc : WState × List (ℕ × ℕ)) (k : ℕ) :
    ∃ t, (pass2Entity sq cosD sinD acc k).2 = acc.2 ++ t
      ∧ ∀ p ∈ t, p.1 = k ∧ k < p.2 := by
  cases h : acc.1.entities[k]? with
  | none =>
    refine ⟨[], ?_, fun p hp => absurd hp (List.not_mem_nil p)⟩
    simp [pass2Entity, h]
  | some A =>
    by_cases halive : A.isAliveAndCollidable
    · have hred : pass2Entity sq cosD sinD acc k
          = (gridQuery acc.1.grid A.overallAABB).foldl
              (processCandidate sq cosD sinD k A.overallAABB) acc := by
        simp [pass2Entity, h, halive]
      rw [hred]
      exact pcFold_log sq cosD sinD k A.overallAABB _ acc
    · refine ⟨[], ?_, fun p hp => absurd hp (List.not_mem_nil p)⟩
      simp [pass2Entity, h, halive]

/-- Helper: unfolding one step of the prefix of the second pass. -/
theorem prefix_succ (sq cosD sinD : ℚ → ℚ) (w : WState) (k : ℕ) :
    pass2Prefix sq cosD sinD w (k + 1)
      = pass2Entity sq cosD sinD (pass2Prefix sq cosD sinD w k) k := by
  unfold pass2Prefix
  rw [List.range_succ, List.foldl_append]
  rfl

/-- Helper: the prefix of the second pass preserves entity count and alive
statuses relative to the frame-start state. -/
theorem prefix_alive_len (sq cosD sinD : ℚ → ℚ) (w : WState) :
    ∀ k, (pass2Prefix sq cosD sinD w k).1.entities.length = w.entities.length
      ∧ ∀ k' : ℕ, (((pass2Prefix sq cosD sinD w k).1.entities[k']?).map Ent.isAliveAndCollidable)
          = ((w.entities[k']?).map Ent.isAliveAndCollidable) := by
  intro k
  induction k with
  | zero => exact ⟨rfl, fun k' => rfl⟩
  | succ k ih =>
    rw [prefix_succ]
    obtain ⟨hl, ha⟩ := p2e_alive_len sq cosD sinD (pass2Prefix sq cosD sinD w k) k
    exact ⟨hl.trans ih.1, fun k' => (ha k').trans (ih.2 k')⟩

/-- Helper: every pair logged by the prefix has its first component among
the processed indices and smaller than its second component. -/
theorem prefix_log_fst_lt (sq cosD sinD : ℚ → ℚ) (w : WState) :
    ∀ k, ∀ p ∈ (pass2Prefix sq cosD sinD w k).2, p.1 < k ∧ p.1 < p.2 := by
  intro k
  induction k with
  | zero => intro p hp; cases hp
  | succ k ih =>
    rw [prefix_succ]
    obtain ⟨t, ht, hprop⟩ := p2e_log sq cosD sinD (pass2Prefix sq cosD sinD w k) k
    intro p hp
    rw [ht] at hp
    rcases List.mem_append.1 hp with hold | hnew
    · obtain ⟨h1, h2⟩ := ih p hold
      exact ⟨by omega, h2⟩
    · obtain ⟨h1, h2⟩ := hprop p hnew
      omega

/-- Helper: once the iteration of entity i is done, later iterations never
log the pair (i, j) again. -/
theorem prefix_count_stable (sq cosD sinD : ℚ → ℚ) (w : WState) (i j : ℕ) :
    ∀ k, i < k →
      ((pass2Prefix sq cosD sinD w k).2.count (i, j))
        = ((pass2Prefix sq cosD sinD w (i + 1)).2.count (i, j)) := by
  intro k
  induction k with
  | zero => intro h; omega
  | succ k ih =>
    intro hik
    by_cases hk : i < k
    · rw [prefix_succ]
      obtain ⟨t, ht, hprop⟩ := p2e_log sq cosD sinD (pass2Prefix sq cosD sinD w k) k
      rw [ht, List.count_append]
      have hz : t.count (i, j) = 0 := by
        refine List.count_eq_zero.2 fun hm => ?_
        obtain ⟨h1, _⟩ := hprop (i, j) hm
        omega
      rw [hz, ih hk]
      omega
    · have : k = i := by omega
      subst this
      rfl

/-- C3 (amended): with i before j in the entity total order and both alive
and collidable, the pair {i, j} is narrow-phase tested exactly once per
occurrence of j in the candidate snapshot queried during i's iteration of
the second pass, and never from j's side.  In particular it is tested
exactly once when j appears exactly once in that snapshot — but a candidate
list that mentions j twice (one grid bucket per shared covered cell, with
no deduplication) yields two tests in the same frame, refuting the original
at-most-once claim (see the counterexample). -/
theorem pass2_pair_test_count (sq cosD sinD : ℚ → ℚ) (w : WState) (i j : ℕ)
    (hij : i < j)
    (haliveI : ((w.entities[i]?).map Ent.isAliveAndCollidable) = some true)
    (haliveJ : ((w.entities[j]?).map Ent.isAliveAndCollidable) = some true) :
    ((pass2 sq cosD sinD w).2.count (j, i) = 0)
    ∧ ∃ Ai, (pass2Prefix sq cosD sinD w i).1.entities[i]? = some Ai
        ∧ ((pass2 sq cosD sinD w).2.count (i, j))
            = ((gridQuery (pass2Prefix sq cosD sinD w i).1.grid Ai.overallAABB).count j) := by
  obtain ⟨Aw, hAw⟩ : ∃ Aw, w.entities[i]? = some Aw := by
    cases h : w.entities[i]? with
    | none => rw [h] at haliveI; cases haliveI
    | some Aw => exact ⟨Aw, rfl⟩
  have hin : i < w.entities.length := (List.getElem?_eq_some_iff.1 hAw).1
  constructor
  · refine List.count_eq_zero.2 fun hm => ?_
    obtain ⟨_, h2⟩ := prefix_log_fst_lt sq cosD sinD w w.entities.length (j, i) hm
    omega
  · obtain ⟨hplen, hpalive⟩ := prefix_alive_len sq cosD sinD w i
    obtain ⟨Ai, hAi, haliveAi⟩ : ∃ Ai, (pass2Prefix sq cosD sinD w i).1.entities[i]? = some Ai
        ∧ Ai.isAliveAndCollidable = true := by
      have hmap := (hpalive i).trans haliveI
      cases h : (pass2Prefix sq cosD sinD w i).1.entities[i]? with
      | none => rw [h] at hmap; cases hmap
      | some Ai =>
        rw [h] at hmap
        exact ⟨Ai, rfl, Option.some.inj hmap⟩
    refine ⟨Ai, hAi, ?_⟩
    have hcount0 : ((pass2Prefix sq cosD sinD w i).2.count (i, j)) = 0 := by
      refine List.count_eq_zero.2 fun hm => ?_
      obtain ⟨h1, _⟩ := prefix_log_fst_lt sq cosD sinD w i (i, j) hm
      omega
    have hstep : ((pass2Prefix sq cosD sinD w (i + 1)).2.count (i, j))
        = ((gridQuery (pass2Prefix sq cosD sinD w i).1.grid Ai.overallAABB).count j) := by
      rw [prefix_succ]
      have hred : pass2Entity sq cosD sinD (pass2Prefix sq cosD sinD w i) i
          = (gridQuery (pass2Prefix sq cosD sinD w i).1.grid Ai.overallAABB).foldl
              (processCandidate sq cosD sinD i Ai.overallAABB) (pass2Prefix sq cosD sinD w i) := by
        simp [pass2Entity, hAi, haliveAi]
      rw [hred]
      rw [pcFold_count sq cosD sinD w i j Ai.overallAABB hij haliveJ _ _ hplen hpalive]
      rw [hcount0]
      omega
    unfold pass2
    rw [prefix_count_stable sq cosD sinD w i j w.entities.length (by omega), hstep]

/-- Witness for pass2_pair_test_count: in wOnce each entity occurs once in
the shared cell, so the pair (0, 1) is tested exactly once. -/
theorem pass2_pair_test_count_witness :
    ((pass2 ratSqrt cosConst sinConst wOnce).2.count (1, 0) = 0)
    ∧ ∃ Ai, (pass2Prefix ratSqrt cosConst sinConst wOnce 0).1.entities[0]? = some Ai
        ∧ ((pass2 ratSqrt cosConst sinConst wOnce).2.count (0, 1))
            = ((gridQuery (pass2Prefix ratSqrt cosConst sinConst wOnce 0).1.grid
                Ai.overallAABB).count 1) :=
  pass2_pair_test_count ratSqrt cosConst sinConst wOnce 0 1 (by decide!)
    (by decide!) (by decide!)

/-- C3 counterexample: in wDup both entities legitimately occupy grid cells
0 and 1 (their AABBs each span both cells), so entity 1 appears twice in
entity 0's candidate snapshot and the unordered pair {0, 1} is passed to
CheckShapesCollide twice within a single frame's second pass. -/
theorem pass2_pair_tested_twice_counterexample :
    ((pass2 ratSqrt cosConst sinConst wDup).2.count (0, 1) = 2)
    ∧ ((pass2 ratSqrt cosConst sinConst wDup).2.count (1, 0) = 0) := by
  decide!

/-- Witness for grid_insert_remove_no_trace from the empty World grid. -/
theorem grid_insert_remove_no_trace_witness :
    (∀ i, (3 : ℕ) ∉ (UniformGrid.mk' 16384 8192 512).buckets i)
    ∧ ∀ i, (3 : ℕ) ∉ (gridRemove
        (gridInsert (UniformGrid.mk' 16384 8192 512) 3 ⟨700, 300, 200, 900⟩)
        3 ⟨700, 300, 200, 900⟩).buckets i :=
  ⟨fun i => by simp [UniformGrid.mk'],
   (grid_insert_remove_no_trace (UniformGrid.mk' 16384 8192 512) 3 ⟨700, 300, 200, 900⟩
      (fun i => by simp [UniformGrid.mk'])).1⟩

end Aspace
